import Mathlib

/-!
# Verification of the devo-cli DynamoDB export pipeline

Shallow embedding in Lean 4 of the parts of `cli_tool/dynamodb` relevant to the
frozen specification claims:

* `core/exporter.py` — `DynamoDBExporter._normalize_lists`, `_flatten_dict`,
  `_serialize_as_json`, `scan_table`, `query_table`, and the CSV-header
  computation of `export_to_csv` / `_export_to_csv_streaming`;
* `core/parallel_scanner.py` — `ParallelScanner._scan_segment` / `parallel_scan`;
* `utils/filter_builder.py` — `FilterBuilder` (`build_filter`, `_validate_syntax`,
  `_get_name_placeholder`, `_process_expression` and its helpers);
* `commands/export_table.py` — `_detect_usable_index` and the strategy-selection
  and data-fetching portion of `export_table_command`.

Python values flowing through the exporter are modelled by the tagged union
`AttrValue`; Python `dict`s by insertion-ordered association lists.  Numbers are
modelled as `Int` (the exporter converts exact `Decimal`s to `int`); the boto3
`TypeSerializer`/`TypeDeserializer` and the file system are external
collaborators and are modelled as opaque total maps.  Thread-pool concurrency in
`parallel_scan` is modelled as a deterministic fold over the segments in
submission order: every property proved below (item counts, truncation) is
independent of the completion order of the segment futures.
-/

set_option autoImplicit false

namespace DevoCli

/-- Deserialized DynamoDB values as produced by boto3's `TypeDeserializer`
and the exporter's `_convert_value`: strings, numbers, booleans, null,
lists and maps. -/
inductive AttrValue where
  | vStr (s : String)
  | vNum (n : Int)
  | vBool (b : Bool)
  | vNull
  | vList (xs : List AttrValue)
  | vMap (m : List (String × AttrValue))

/-- A deserialized item: an insertion-ordered attribute-name → value map
(Python `dict`). -/
abbrev Item := List (String × AttrValue)

/-- `isinstance(v, list)` in the exporter's type dispatch. -/
def AttrValue.isVList : AttrValue → Bool
  | .vList _ => true
  | _ => false

/-- The payload of a `vList`, `[]` otherwise. -/
def AttrValue.listItems : AttrValue → List AttrValue
  | .vList xs => xs
  | _ => []

/-- Python `max(iterable, key=f)` specialised to attribute entries keyed by
list length: returns the first entry whose list is longest (`max` keeps the
first maximum on ties), `none` on an empty list. -/
def maxByListLen : List (String × AttrValue) → Option (String × AttrValue)
  | [] => none
  | kv :: rest =>
    match maxByListLen rest with
    | none => some kv
    | some best =>
      -- Python's max scans left to right and replaces only on a strictly
      -- greater key, so the first maximal element wins; folding from the
      -- right, the head wins unless the best of the tail is strictly longer.
      if kv.2.listItems.length < best.2.listItems.length then some best else some kv

/-- `DynamoDBExporter._normalize_lists` (exporter.py:105-136): expand the
list-valued attributes of an item into one row per element of the longest
list; shorter lists fall back to their last element, empty lists to null,
non-list attributes are repeated unchanged. -/
def normalizeLists (data : Item) : List Item :=
  let listFields := data.filter fun kv => kv.2.isVList
  match maxByListLen listFields with
  | none => [data]
  | some maxKV =>
    let maxList := maxKV.2.listItems
    (List.range maxList.length).map fun i =>
      data.map fun kv =>
        match kv.2 with
        | .vList xs =>
          (kv.1,
            match xs.get? i with
            | some x => x
            | none =>
              match xs.getLast? with
              | some x => x
              | none => .vNull)
        | _ => kv

theorem maxByListLen_mem : ∀ (l : List (String × AttrValue)) (kv : String × AttrValue),
    maxByListLen l = some kv → kv ∈ l := by
  intro l
  induction l with
  | nil => intro kv h; simp [maxByListLen] at h
  | cons x xs ih =>
    intro kv h
    simp only [maxByListLen] at h
    cases hx : maxByListLen xs with
    | none => simp [hx] at h; simp [h]
    | some best =>
      simp only [hx] at h
      by_cases hlt : x.2.listItems.length < best.2.listItems.length
      · simp only [if_pos hlt] at h
        cases h
        exact List.mem_cons_of_mem _ (ih _ hx)
      · simp only [if_neg hlt] at h
        cases h
        exact List.mem_cons_self _ _

theorem maxByListLen_le : ∀ (l : List (String × AttrValue)) (kv : String × AttrValue),
    maxByListLen l = some kv →
    ∀ kv' ∈ l, kv'.2.listItems.length ≤ kv.2.listItems.length := by
  intro l
  induction l with
  | nil => intro kv h; simp [maxByListLen] at h
  | cons x xs ih =>
    intro kv h kv' hkv'
    simp only [maxByListLen] at h
    cases hx : maxByListLen xs with
    | none =>
      simp [hx] at h
      have hxs : xs = [] := by
        cases xs with
        | nil => rfl
        | cons y ys =>
          exfalso
          simp only [maxByListLen] at hx
          cases hy : maxByListLen ys <;> simp [hy] at hx
          split at hx <;> simp_all
      subst hxs
      simp at hkv'
      simp [hkv', ← h]
    | some best =>
      simp only [hx] at h
      rcases List.mem_cons.mp hkv' with h1 | h2
      · subst h1
        by_cases hlt : kv'.2.listItems.length < best.2.listItems.length
        · simp only [if_pos hlt] at h
          cases h
          exact Nat.le_of_lt hlt
        · simp only [if_neg hlt] at h
          cases h
          exact Nat.le_refl _
      · by_cases hlt : x.2.listItems.length < best.2.listItems.length
        · simp only [if_pos hlt] at h
          cases h
          exact ih _ hx _ h2
        · simp only [if_neg hlt] at h
          cases h
          exact Nat.le_trans (ih _ hx _ h2) (Nat.le_of_not_lt hlt)

theorem maxByListLen_isSome (x : String × AttrValue) (xs : List (String × AttrValue)) :
    ∃ kv, maxByListLen (x :: xs) = some kv := by
  simp only [maxByListLen]
  cases maxByListLen xs with
  | none => exact ⟨x, rfl⟩
  | some best =>
    by_cases hlt : x.2.listItems.length < best.2.listItems.length
    · exact ⟨best, by simp [hlt]⟩
    · exact ⟨x, by simp [hlt]⟩

/-- C9: `_normalize_lists` is the identity (a single unchanged row) on items
with no list-valued attribute (exporter.py:108-112). -/
theorem c9_normalize_identity_on_list_free (data : Item)
    (h : ∀ kv ∈ data, kv.2.isVList = false) :
    normalizeLists data = [data] := by
  have hfilter : data.filter (fun kv => kv.2.isVList) = [] := by
    rw [List.filter_eq_nil_iff]
    intro kv hkv
    simp [h kv hkv]
  simp [normalizeLists, hfilter, maxByListLen]

theorem c9_witness :
    normalizeLists [("id", AttrValue.vNum 7), ("name", AttrValue.vStr "x")] =
      [[("id", AttrValue.vNum 7), ("name", AttrValue.vStr "x")]] :=
  c9_normalize_identity_on_list_free _ (by decide)

/-- C7: on an item whose list-valued attributes have lengths 3, 1 and 0,
`_normalize_lists` produces exactly 3 rows; the length-1 list repeats its
single value in every row, the empty list yields null in every row, and
every non-list attribute is repeated unchanged in every row
(exporter.py:105-136). -/
theorem c7_normalize_three_one_zero (data : Item) (a b c : String)
    (la : List AttrValue) (vb : AttrValue)
    (ha : (a, AttrValue.vList la) ∈ data) (hlen : la.length = 3)
    (hb : (b, AttrValue.vList [vb]) ∈ data)
    (hc : (c, AttrValue.vList []) ∈ data)
    (honly : ∀ kv ∈ data, kv.2.isVList = true →
      kv = (a, AttrValue.vList la) ∨ kv = (b, AttrValue.vList [vb]) ∨
      kv = (c, AttrValue.vList [])) :
    (normalizeLists data).length = 3 ∧
    ∀ row ∈ normalizeLists data,
      (b, vb) ∈ row ∧ (c, AttrValue.vNull) ∈ row ∧
      ∀ kv ∈ data, kv.2.isVList = false → kv ∈ row := by
  have hmemf : (a, AttrValue.vList la) ∈ data.filter (fun kv => kv.2.isVList) := by
    rw [List.mem_filter]
    exact ⟨ha, rfl⟩
  obtain ⟨kv0, hkv0⟩ :
      ∃ kv0, maxByListLen (data.filter (fun kv => kv.2.isVList)) = some kv0 := by
    cases hf : data.filter (fun kv => kv.2.isVList) with
    | nil => rw [hf] at hmemf; simp at hmemf
    | cons y ys => exact maxByListLen_isSome y ys
  have hle : 3 ≤ kv0.2.listItems.length := by
    have := maxByListLen_le _ _ hkv0 _ hmemf
    simpa [AttrValue.listItems, hlen] using this
  have hkv0mem := maxByListLen_mem _ _ hkv0
  rw [List.mem_filter] at hkv0mem
  have hkv0eq : kv0 = (a, AttrValue.vList la) := by
    rcases honly kv0 hkv0mem.1 hkv0mem.2 with h1 | h1 | h1
    · exact h1
    · subst h1; simp [AttrValue.listItems] at hle
    · subst h1; simp [AttrValue.listItems] at hle
  have hunf : normalizeLists data =
      (List.range la.length).map fun i =>
        data.map fun kv =>
          match kv.2 with
          | .vList xs =>
            (kv.1,
              match xs.get? i with
              | some x => x
              | none =>
                match xs.getLast? with
                | some x => x
                | none => .vNull)
          | _ => kv := by
    simp only [normalizeLists, hkv0, hkv0eq, AttrValue.listItems]
  constructor
  · simp [hunf, hlen]
  · intro row hrow
    rw [hunf] at hrow
    obtain ⟨i, _, hroweq⟩ := List.mem_map.mp hrow
    subst hroweq
    refine ⟨?_, ?_, ?_⟩
    · refine List.mem_map.mpr ⟨(b, AttrValue.vList [vb]), hb, ?_⟩
      cases i <;> rfl
    · exact List.mem_map.mpr ⟨(c, AttrValue.vList []), hc, rfl⟩
    · intro kv hkv hnl
      refine List.mem_map.mpr ⟨kv, hkv, ?_⟩
      obtain ⟨k, v⟩ := kv
      cases v <;> simp_all [AttrValue.isVList]

theorem c7_witness :
    (normalizeLists [("tags", AttrValue.vList [.vNum 1, .vNum 2, .vNum 3]),
        ("single", AttrValue.vList [.vStr "s"]), ("empty", AttrValue.vList []),
        ("id", AttrValue.vNum 9)]).length = 3 ∧
    ∀ row ∈ normalizeLists [("tags", AttrValue.vList [.vNum 1, .vNum 2, .vNum 3]),
        ("single", AttrValue.vList [.vStr "s"]), ("empty", AttrValue.vList []),
        ("id", AttrValue.vNum 9)],
      ("single", AttrValue.vStr "s") ∈ row ∧ ("empty", AttrValue.vNull) ∈ row ∧
      ∀ kv ∈ ([("tags", AttrValue.vList [.vNum 1, .vNum 2, .vNum 3]),
          ("single", AttrValue.vList [.vStr "s"]), ("empty", AttrValue.vList []),
          ("id", AttrValue.vNum 9)] : Item), kv.2.isVList = false → kv ∈ row :=
  c7_normalize_three_one_zero _ "tags" "single" "empty"
    [.vNum 1, .vNum 2, .vNum 3] (.vStr "s")
    (by simp) rfl (by simp) (by simp)
    (by
      intro kv hkv hl
      simp only [List.mem_cons, List.not_mem_nil, or_false] at hkv
      rcases hkv with rfl | rfl | rfl | rfl <;> simp_all [AttrValue.isVList])

/-! ## FilterBuilder (`utils/filter_builder.py`)

The filter compiler works over plain Python strings with `re`-based pattern
matching.  We embed it at the character level: the specific regular
expressions used by the source are implemented directly as scanners over
`List Char`.  Python's `\s` and `\w` classes are modelled for the ASCII
range.  Greedy whitespace quantifiers are modelled without backtracking,
which is exact for every pattern below whose whitespace run is followed by a
non-whitespace literal (all of them); the one place where real backtracking
could differ — pathological whitespace runs inside a failing `BETWEEN`
match — only changes which unprocessed string is echoed back, and no claim
depends on it. -/

/-- `FilterBuilder.RESERVED_KEYWORDS` (filter_builder.py:13-587): the DynamoDB
reserved words that force a name placeholder. -/
def RESERVED_KEYWORDS : List String := [
    "abort", "absolute", "action", "add", "after", "agent", "aggregate", "all",
    "allocate", "alter", "analyze", "and", "any", "archive", "are", "array",
    "as", "asc", "ascii", "asensitive", "assertion", "asymmetric", "at", "atomic",
    "attach", "attribute", "auth", "authorization", "authorize", "auto", "avg", "back",
    "backup", "base", "batch", "before", "begin", "between", "bigint", "binary",
    "bit", "blob", "block", "boolean", "both", "breadth", "bucket", "bulk",
    "by", "byte", "call", "called", "calling", "capacity", "cascade", "cascaded",
    "case", "cast", "catalog", "char", "character", "check", "class", "clob",
    "close", "cluster", "clustered", "clustering", "clusters", "coalesce", "collate", "collation",
    "collection", "column", "columns", "combine", "comment", "commit", "compact", "compile",
    "compress", "condition", "conflict", "connect", "connection", "consistency", "consistent", "constraint",
    "constraints", "constructor", "consumed", "continue", "convert", "copy", "corresponding", "count",
    "counter", "create", "cross", "cube", "current", "cursor", "cycle", "data",
    "database", "date", "datetime", "day", "deallocate", "dec", "decimal", "declare",
    "default", "deferrable", "deferred", "define", "defined", "definition", "delete", "delimited",
    "depth", "deref", "desc", "describe", "descriptor", "detach", "deterministic", "diagnostics",
    "directories", "disable", "disconnect", "distinct", "distribute", "do", "domain", "double",
    "drop", "dump", "duration", "dynamic", "each", "element", "else", "elseif",
    "empty", "enable", "end", "equal", "equals", "error", "escape", "escaped",
    "eval", "evaluate", "exceeded", "except", "exception", "exceptions", "exclusive", "exec",
    "execute", "exists", "exit", "explain", "explode", "export", "expression", "extended",
    "external", "extract", "fail", "false", "family", "fetch", "fields", "file",
    "filter", "filtering", "final", "finish", "first", "fixed", "flattern", "float",
    "for", "force", "foreign", "format", "forward", "found", "free", "from",
    "full", "function", "functions", "general", "generate", "get", "glob", "global",
    "go", "goto", "grant", "greater", "group", "grouping", "handler", "hash",
    "have", "having", "heap", "hidden", "hold", "hour", "identified", "identity",
    "if", "ignore", "immediate", "import", "in", "including", "inclusive", "increment",
    "incremental", "index", "indexed", "indexes", "indicator", "infinite", "initially", "inline",
    "inner", "innter", "inout", "input", "insensitive", "insert", "instead", "int",
    "integer", "intersect", "interval", "into", "invalidate", "is", "isolation", "item",
    "items", "iterate", "join", "key", "keys", "lag", "language", "large",
    "last", "lateral", "lead", "leading", "leave", "left", "length", "less",
    "level", "like", "limit", "limited", "lines", "list", "load", "local",
    "localtime", "localtimestamp", "location", "locator", "lock", "locks", "log", "loged",
    "long", "loop", "lower", "map", "match", "materialized", "max", "maxlen",
    "member", "merge", "method", "metrics", "min", "minus", "minute", "missing",
    "mod", "mode", "modifies", "modify", "module", "month", "multi", "multiset",
    "name", "names", "national", "natural", "nchar", "nclob", "new", "next",
    "no", "none", "not", "null", "nullif", "number", "numeric", "object",
    "of", "offline", "offset", "old", "on", "online", "only", "opaque",
    "open", "operator", "option", "or", "order", "ordinality", "other", "others",
    "out", "outer", "output", "over", "overlaps", "override", "owner", "pad",
    "parallel", "parameter", "parameters", "partial", "partition", "partitioned", "partitions", "path",
    "percent", "percentile", "permission", "permissions", "pipe", "pipelined", "plan", "pool",
    "position", "precision", "prepare", "preserve", "primary", "prior", "private", "privileges",
    "procedure", "processed", "project", "projection", "property", "provisioning", "public", "put",
    "query", "quit", "quorum", "raise", "random", "range", "rank", "raw",
    "read", "reads", "real", "rebuild", "record", "recursive", "reduce", "ref",
    "reference", "references", "referencing", "regexp", "region", "reindex", "relative", "release",
    "remainder", "rename", "repeat", "replace", "request", "reset", "resignal", "resource",
    "response", "restore", "restrict", "result", "return", "returning", "returns", "reverse",
    "revoke", "right", "role", "roles", "rollback", "rollup", "routine", "row",
    "rows", "rule", "rules", "sample", "satisfies", "save", "savepoint", "scan",
    "schema", "scope", "scroll", "search", "second", "section", "segment", "segments",
    "select", "self", "semi", "sensitive", "separate", "sequence", "serializable", "session",
    "set", "sets", "shard", "share", "shared", "short", "show", "signal",
    "similar", "size", "skewed", "smallint", "snapshot", "some", "source", "space",
    "spaces", "sparse", "specific", "specifictype", "split", "sql", "sqlcode", "sqlerror",
    "sqlexception", "sqlstate", "sqlwarning", "start", "state", "static", "status", "storage",
    "store", "stored", "stream", "string", "struct", "style", "sub", "submultiset",
    "subpartition", "substring", "subtype", "sum", "super", "symmetric", "synonym", "system",
    "table", "tablesample", "temp", "temporary", "terminated", "text", "than", "then",
    "throughput", "time", "timestamp", "timezone", "tinyint", "to", "token", "total",
    "touch", "trailing", "transaction", "transform", "translate", "translation", "treat", "trigger",
    "trim", "true", "truncate", "ttl", "tuple", "type", "under", "undo",
    "union", "unique", "unit", "unknown", "unlogged", "unnest", "unprocessed", "unsigned",
    "until", "update", "upper", "url", "usage", "use", "user", "users",
    "using", "uuid", "vacuum", "value", "valued", "values", "varchar", "variable",
    "variance", "varint", "varying", "view", "views", "virtual", "void", "wait",
    "when", "whenever", "where", "while", "window", "with", "within", "without",
    "work", "wrapped", "write", "year", "zone"]

/-- Python `\s` on ASCII input: space, tab, newline, carriage return,
vertical tab, form feed. -/
def isPySpace (c : Char) : Bool :=
  c = ' ' || c = '\t' || c = '\n' || c = '\r' || c = Char.ofNat 11 || c = Char.ofNat 12

/-- Python `\w` on ASCII input: letters, digits, underscore. -/
def isWordChar (c : Char) : Bool :=
  c.isAlphanum || c = '_'

/-- `pat` matches at the start of `cs`. -/
def startsWithChars : List Char → List Char → Bool
  | [], _ => true
  | _ :: _, [] => false
  | p :: ps, c :: cs => p = c && startsWithChars ps cs

/-- Helper for `containsSub`: `pat` occurs somewhere in `cs`. -/
def containsSubAux (pat : List Char) : List Char → Bool
  | [] => startsWithChars pat []
  | c :: cs => startsWithChars pat (c :: cs) || containsSubAux pat cs

/-- Substring containment (Python `in` on strings). -/
def containsSub (pat s : String) : Bool :=
  containsSubAux pat.toList s.toList

/-- Python `str.lower()` on ASCII input.  (Defined over the character list
so that it reduces definitionally; `String.toLower` is implemented by
well-founded recursion over byte positions and does not.) -/
def toLowerPy (s : String) : String :=
  String.mk (s.toList.map Char.toLower)

/-- Python `s[n:]` for a non-negative `n`. -/
def strDrop (s : String) (n : Nat) : String :=
  String.mk (s.toList.drop n)

/-- Python `s[:-n]` (drop `n` characters from the right). -/
def strDropRight (s : String) (n : Nat) : String :=
  String.mk (s.toList.take (s.toList.length - n))

/-- Python `str.startswith`. -/
def strStartsWith (s pat : String) : Bool :=
  startsWithChars pat.toList s.toList

/-- Python `str.endswith`. -/
def strEndsWith (s pat : String) : Bool :=
  startsWithChars pat.toList.reverse s.toList.reverse

/-- Python `str.split(",")`. -/
def splitCommaAux : List Char → List Char → List String
  | revCur, [] => [String.mk revCur.reverse]
  | revCur, c :: cs =>
    if c = ',' then String.mk revCur.reverse :: splitCommaAux [] cs
    else splitCommaAux (c :: revCur) cs

/-- Python `str.split(",")` on strings. -/
def splitComma (s : String) : List String :=
  splitCommaAux [] s.toList

/-- Python `sep.join(parts)`. -/
def joinSep (sep : String) : List String → String
  | [] => ""
  | [x] => x
  | x :: xs => x ++ sep ++ joinSep sep xs

/-- Python `str.count` for a single-character needle (used on `"("`/`")"`). -/
def countChar (c : Char) (s : String) : Nat :=
  (s.toList.filter (· = c)).length

/-- A token of one of the fixed regular expressions searched by
`_validate_syntax`: a literal (matched case-insensitively, `re.IGNORECASE`),
`\s+`, or `\s*`. -/
inductive PatTok where
  | lit (s : String)
  | wsPlus
  | wsStar

/-- Match a literal case-insensitively at the head, returning the rest. -/
def matchLitCI : List Char → List Char → Option (List Char)
  | [], cs => some cs
  | _ :: _, [] => none
  | p :: ps, c :: cs => if p.toLower = c.toLower then matchLitCI ps cs else none

/-- Match a token sequence at the head of `cs`.  Whitespace quantifiers are
greedy; since every following token starts with a non-whitespace literal,
this is exactly the regex semantics. -/
def matchPat : List PatTok → List Char → Option (List Char)
  | [], cs => some cs
  | .lit l :: rest, cs => (matchLitCI l.toList cs).bind (matchPat rest)
  | .wsPlus :: rest, cs =>
    if (cs.takeWhile isPySpace).isEmpty then none
    else matchPat rest (cs.dropWhile isPySpace)
  | .wsStar :: rest, cs => matchPat rest (cs.dropWhile isPySpace)

/-- `re.search`: the pattern matches at some position of the string. -/
def searchPat (toks : List PatTok) : List Char → Bool
  | [] => (matchPat toks []).isSome
  | c :: cs => (matchPat toks (c :: cs)).isSome || searchPat toks cs

/-- The `invalid_patterns` list of `_validate_syntax`
(filter_builder.py:694-702), in source order. -/
def invalidPatterns : List (List PatTok) :=
  [ [.lit "AND", .wsPlus, .lit "AND"],
    [.lit "OR", .wsPlus, .lit "OR"],
    [.lit "AND", .wsPlus, .lit "OR", .wsPlus, .lit "AND"],
    [.lit "OR", .wsPlus, .lit "AND", .wsPlus, .lit "OR"],
    [.lit "=", .wsStar, .lit "="],
    [.lit ">", .wsStar, .lit ">"],
    [.lit "<", .wsStar, .lit "<"] ]

/-- `FilterBuilder._validate_syntax` (filter_builder.py:683-707): equal
`(`/`)` counts, no `()` substring, none of the consecutive-operator
patterns. -/
def validateSyntaxBool (expr : String) : Bool :=
  if countChar '(' expr ≠ countChar ')' expr then false
  else if containsSub "()" expr then false
  else if invalidPatterns.any (fun p => searchPat p expr.toList) then false
  else true

/-- Python `str.strip()` over the ASCII whitespace class. -/
def trimPyList (cs : List Char) : List Char :=
  ((cs.dropWhile isPySpace).reverse.dropWhile isPySpace).reverse

/-- Python `str.strip()` on strings. -/
def trimPy (s : String) : String :=
  String.mk (trimPyList s.toList)

/-- Python values produced by `FilterBuilder._parse_value`: bool, None, int,
float, str.  The numeric value of a float literal is never inspected by the
filter builder (it is handed straight to the external serializer), so the
model carries the literal text. -/
inductive PyVal where
  | pBool (b : Bool)
  | pNull
  | pInt (n : Int)
  | pFloat (lit : String)
  | pStr (s : String)

/-- Output of boto3's `TypeSerializer.serialize` (an external collaborator):
modelled as an opaque injection of the Python value into DynamoDB wire
format. -/
structure WireVal where
  val : PyVal

/-- `self.serializer.serialize` (external boto3 `TypeSerializer`), modelled
as a total injection. -/
def serialize (v : PyVal) : WireVal := ⟨v⟩

/-- Digit run to a natural number; `none` when empty or non-digits occur.
Python `int(str)` accepts a sign handled by the caller; underscore digit
separators are not modelled. -/
def parseNatDigits (cs : List Char) : Option Nat :=
  if cs.isEmpty || !cs.all Char.isDigit then none
  else some (cs.foldl (fun n c => n * 10 + (c.toNat - '0'.toNat)) 0)

/-- Python `int(str)` on a stripped string. -/
def parseIntLit (cs : List Char) : Option Int :=
  match cs with
  | '+' :: rest => (parseNatDigits rest).map Int.ofNat
  | '-' :: rest => (parseNatDigits rest).map (fun n => -(n : Int))
  | _ => (parseNatDigits cs).map Int.ofNat

/-- Exponent suffix acceptable to Python `float(str)` (`e`/`E`, optional
sign, digits), or nothing. -/
def floatExpOk : List Char → Bool
  | [] => true
  | c :: rest =>
    (c = 'e' || c = 'E') &&
      (match rest with
       | '+' :: ds => !ds.isEmpty && ds.all Char.isDigit
       | '-' :: ds => !ds.isEmpty && ds.all Char.isDigit
       | ds => !ds.isEmpty && ds.all Char.isDigit)

/-- Mantissa of a float literal containing a `.` (the only case in which
`_parse_value` calls `float`): digits, a dot, digits, with at least one
digit overall, then an optional exponent. -/
def floatMantissaOk (cs : List Char) : Bool :=
  let intPart := cs.takeWhile Char.isDigit
  match cs.dropWhile Char.isDigit with
  | '.' :: frac =>
    let fracDigits := frac.takeWhile Char.isDigit
    (!intPart.isEmpty || !fracDigits.isEmpty) && floatExpOk (frac.dropWhile Char.isDigit)
  | _ => false

/-- Python `float(str)` acceptance for strings containing a `.`
(`inf`/`nan` spellings contain no dot and never reach the float branch). -/
def isFloatLit (cs : List Char) : Bool :=
  match cs with
  | '+' :: rest => floatMantissaOk rest
  | '-' :: rest => floatMantissaOk rest
  | _ => floatMantissaOk cs

/-- Quote-stripping tail of `_parse_value` (filter_builder.py:634-638). -/
def unquoteOrRaw (s : String) : PyVal :=
  let cs := s.toList
  let q2 := cs.head? = some '"' && cs.getLast? = some '"'
  let q1 := cs.head? = some '\'' && cs.getLast? = some '\''
  if q2 || q1 then .pStr (String.mk ((cs.drop 1).dropLast))
  else .pStr s

/-- `FilterBuilder._parse_value` (filter_builder.py:612-638): strip, then
boolean → null → number (float only when a `.` occurs, else int) → quoted
string → raw string. -/
def parseValue (valueStr : String) : PyVal :=
  let s := trimPy valueStr
  if toLowerPy s = "true" then .pBool true
  else if toLowerPy s = "false" then .pBool false
  else if toLowerPy s = "null" || toLowerPy s = "none" then .pNull
  else if s.toList.contains '.' then
    if isFloatLit s.toList then .pFloat s else unquoteOrRaw s
  else
    match parseIntLit s.toList with
    | some n => .pInt n
    | none => unquoteOrRaw s

/-- The mutable compiler state of a `FilterBuilder` instance during one
`build_filter` call: the two placeholder counters and the two
insertion-ordered placeholder maps (filter_builder.py:589-594). -/
structure FBState where
  value_counter : Nat
  name_counter : Nat
  expression_attribute_values : List (String × WireVal)
  expression_attribute_names : List (String × String)

/-- The state right after the reset at the top of `build_filter`. -/
def initFBState : FBState := ⟨0, 0, [], []⟩

/-- `FilterBuilder._get_value_placeholder` (filter_builder.py:596-600). -/
def getValuePlaceholder (st : FBState) : String × FBState :=
  (":val" ++ toString st.value_counter, { st with value_counter := st.value_counter + 1 })

/-- The escape condition of `_get_name_placeholder`
(filter_builder.py:605): lower-cased name in the reserved set, or a `.` or
`-` character in the name. -/
def needsNamePlaceholder (attrName : String) : Bool :=
  RESERVED_KEYWORDS.contains (toLowerPy attrName) ||
    attrName.toList.contains '.' || attrName.toList.contains '-'

/-- `FilterBuilder._get_name_placeholder` (filter_builder.py:602-610). -/
def getNamePlaceholder (attrName : String) (st : FBState) : String × FBState :=
  if needsNamePlaceholder attrName then
    let ph := "#attr" ++ toString st.name_counter
    (ph, { st with
            name_counter := st.name_counter + 1,
            expression_attribute_names := st.expression_attribute_names ++ [(ph, attrName)] })
  else (attrName, st)

/-- `self.expression_attribute_values[ph] = self.serializer.serialize(v)`. -/
def addValue (st : FBState) (ph : String) (v : PyVal) : FBState :=
  { st with expression_attribute_values := st.expression_attribute_values ++ [(ph, serialize v)] }

/-- `FilterBuilder._count_parentheses` (filter_builder.py:762-770): the net
count of `(` minus `)`. -/
def countParens (s : String) : Int :=
  s.toList.foldl (fun n c => if c = '(' then n + 1 else if c = ')' then n - 1 else n) 0

/-- Match `\s+(?:OP|op)\s+` at the head of `cs` for `OP` ∈ {AND, OR},
returning the suffix after the match.  Whitespace is greedy; since the
operator letters are not whitespace, greedy matching without backtracking
is exact here. -/
def matchOpSep (op : String) (cs : List Char) : Option (List Char) :=
  if (cs.takeWhile isPySpace).isEmpty then none
  else
    let afterWs := cs.dropWhile isPySpace
    let tryLit (lit : List Char) : Option (List Char) :=
      if startsWithChars lit afterWs then
        let afterOp := afterWs.drop lit.length
        if (afterOp.takeWhile isPySpace).isEmpty then none
        else some (afterOp.dropWhile isPySpace)
      else none
    match tryLit op.toList with
    | some r => some r
    | none => tryLit (toLowerPy op).toList

/-- `c`'s effect on the running parenthesis depth. -/
def updateDepth (depth : Int) (c : Char) : Int :=
  if c = '(' then depth + 1 else if c = ')' then depth - 1 else depth

/-- Scanner behind `_split_by_operator`: walk the string left to right
tracking parenthesis depth, and split at the first operator separator
found at depth 0.  `re.finditer` skips positions inside an earlier
(depth-rejected) match, but such positions have the same depth (the match
span holds no parentheses), so a position-by-position scan is equivalent. -/
def splitByOperatorAux (op : String) : List Char → Int → List Char → Option (String × String)
  | [], _, _ => none
  | c :: cs, depth, revPre =>
    match matchOpSep op (c :: cs) with
    | some rest =>
      if depth = 0 then some (trimPy (String.mk revPre.reverse), trimPy (String.mk rest))
      else splitByOperatorAux op cs (updateDepth depth c) (c :: revPre)
    | none => splitByOperatorAux op cs (updateDepth depth c) (c :: revPre)

/-- `FilterBuilder._split_by_operator` (filter_builder.py:772-798): split at
the first top-level `AND`/`OR`, stripping both sides. -/
def splitByOperator (expr : String) (op : String) : Option (String × String) :=
  splitByOperatorAux op expr.toList 0 []

/-- Python `expr.split(sep, 1)` restricted to the found case: split at the
first occurrence of `sep`. -/
def splitOnceAux (sep : List Char) : List Char → List Char → Option (String × String)
  | _, [] => none
  | revPre, c :: cs =>
    if startsWithChars sep (c :: cs) then
      some (String.mk revPre.reverse, String.mk ((c :: cs).drop sep.length))
    else splitOnceAux sep (c :: revPre) cs

/-- `FilterBuilder._process_comparison` (filter_builder.py:800-821). -/
def processComparison (expr : String) (op : String) (st : FBState) : String × FBState :=
  match splitOnceAux (" " ++ op ++ " ").toList [] expr.toList with
  | none => (expr, st)
  | some (p0, p1) =>
    let attrName := trimPy p0
    let valueStr := trimPy p1
    let (namePh, st1) := getNamePlaceholder attrName st
    let (valPh, st2) := getValuePlaceholder st1
    let st3 := addValue st2 valPh (parseValue valueStr)
    let opOut := if op = "!=" then "<>" else op
    (namePh ++ " " ++ opOut ++ " " ++ valPh, st3)

/-- The lazy tail `(.+?)\s+(?:AND|and)\s+(.+)` of the BETWEEN regex: scan
for the earliest separator position with a non-empty group before it; a
separator whose trailing whitespace swallowed the rest of the string gives
one character back (regex backtracking) so that the final group is
non-empty. -/
def findBetweenSplit : List Char → List Char → Option (String × String)
  | _, [] => none
  | revPre, c :: cs =>
    let keepScanning : Option (String × String) := findBetweenSplit (c :: revPre) cs
    if revPre.isEmpty then keepScanning
    else
      match matchOpSep "AND" (c :: cs) with
      | some rest =>
        if !rest.isEmpty then some (String.mk revPre.reverse, String.mk rest)
        else
          let trailWs := ((c :: cs).reverse.takeWhile isPySpace).length
          if trailWs ≥ 2 then
            some (String.mk revPre.reverse, String.mk [(c :: cs).getLastD ' '])
          else keepScanning
      | none => keepScanning

/-- The anchored BETWEEN regex
`(\w+)\s+(?:BETWEEN|between)\s+(.+?)\s+(?:AND|and)\s+(.+)`
(filter_builder.py:825), returning the three groups. -/
def matchBetween (cs : List Char) : Option (String × String × String) :=
  if (cs.takeWhile isWordChar).isEmpty then none
  else
    let attr := String.mk (cs.takeWhile isWordChar)
    let r1 := cs.dropWhile isWordChar
    if (r1.takeWhile isPySpace).isEmpty then none
    else
      let r2 := r1.dropWhile isPySpace
      let tryKw (kw : String) : Option (List Char) :=
        if startsWithChars kw.toList r2 then some (r2.drop kw.length) else none
      match (tryKw "BETWEEN").orElse (fun _ => tryKw "between") with
      | none => none
      | some r3 =>
        if (r3.takeWhile isPySpace).isEmpty then none
        else
          match findBetweenSplit [] (r3.dropWhile isPySpace) with
          | none => none
          | some (v1, v2) => some (attr, v1, v2)

/-- `FilterBuilder._process_between` (filter_builder.py:823-840). -/
def processBetween (expr : String) (st : FBState) : String × FBState :=
  match matchBetween expr.toList with
  | none => (expr, st)
  | some (attr, v1, v2) =>
    let (namePh, st1) := getNamePlaceholder (trimPy attr) st
    let (ph1, st2) := getValuePlaceholder st1
    let (ph2, st3) := getValuePlaceholder st2
    let st4 := addValue st3 ph1 (parseValue (trimPy v1))
    let st5 := addValue st4 ph2 (parseValue (trimPy v2))
    (namePh ++ " BETWEEN " ++ ph1 ++ " AND " ++ ph2, st5)

/-- The anchored IN regex `(\w+)\s+(?:IN|in)\s+\((.+)\)`
(filter_builder.py:844): the greedy `(.+)` makes the closing parenthesis
match the last `)` of the string. -/
def matchIn (cs : List Char) : Option (String × String) :=
  if (cs.takeWhile isWordChar).isEmpty then none
  else
    let attr := String.mk (cs.takeWhile isWordChar)
    let r1 := cs.dropWhile isWordChar
    if (r1.takeWhile isPySpace).isEmpty then none
    else
      let r2 := r1.dropWhile isPySpace
      let tryKw (kw : String) : Option (List Char) :=
        if startsWithChars kw.toList r2 then some (r2.drop kw.length) else none
      match (tryKw "IN").orElse (fun _ => tryKw "in") with
      | none => none
      | some r3 =>
        if (r3.takeWhile isPySpace).isEmpty then none
        else
          match r3.dropWhile isPySpace with
          | '(' :: r4 =>
            let afterClose := r4.reverse.dropWhile (fun c => c ≠ ')')
            match afterClose with
            | [] => none
            | _ :: revContent =>
              if revContent.isEmpty then none
              else some (attr, String.mk revContent.reverse)
          | _ => none

/-- `FilterBuilder._process_in` (filter_builder.py:842-862). -/
def processIn (expr : String) (st : FBState) : String × FBState :=
  match matchIn expr.toList with
  | none => (expr, st)
  | some (attr, valuesStr) =>
    let (namePh, st1) := getNamePlaceholder (trimPy attr) st
    let values := (splitComma (trimPy valuesStr)).map trimPy
    let (phs, st2) := values.foldl
      (fun (acc : List String × FBState) v =>
        let (ph, st') := getValuePlaceholder acc.2
        (acc.1 ++ [ph], addValue st' ph (parseValue v)))
      ([], st1)
    (namePh ++ " IN (" ++ joinSep ", " phs ++ ")", st2)

/-- The anchored regex `FUNC\((\w+)\)` used by `_process_function`
(filter_builder.py:866). -/
def matchFunc (funcName : String) (cs : List Char) : Option String :=
  if startsWithChars (funcName ++ "(").toList cs then
    let rest := cs.drop (funcName.length + 1)
    let w := rest.takeWhile isWordChar
    if w.isEmpty then none
    else if (rest.dropWhile isWordChar).head? = some ')' then some (String.mk w)
    else none
  else none

/-- `FilterBuilder._process_function` (filter_builder.py:864-873):
`attribute_exists` / `attribute_not_exists`. -/
def processFunction (expr funcName : String) (st : FBState) : String × FBState :=
  match matchFunc funcName expr.toList with
  | none => (expr, st)
  | some attr =>
    let (namePh, st1) := getNamePlaceholder (trimPy attr) st
    (funcName ++ "(" ++ namePh ++ ")", st1)

/-- The anchored regex `FUNC\(([^,]+),\s*([^)]+)\)` used by
`_process_function_with_value` (filter_builder.py:878).  When the greedy
`\s*` swallows everything up to the `)`, backtracking gives one whitespace
character back so that `([^)]+)` is non-empty. -/
def matchFuncWithValue (funcName : String) (cs : List Char) : Option (String × String) :=
  if startsWithChars (funcName ++ "(").toList cs then
    let rest := cs.drop (funcName.length + 1)
    let g1 := rest.takeWhile (fun c => c ≠ ',')
    if g1.isEmpty then none
    else
      match rest.dropWhile (fun c => c ≠ ',') with
      | ',' :: r2 =>
        let r3 := r2.dropWhile isPySpace
        let g2 := r3.takeWhile (fun c => c ≠ ')')
        if g2.isEmpty then
          if r3.head? = some ')' && !(r2.takeWhile isPySpace).isEmpty then
            some (String.mk g1, String.mk [(r2.takeWhile isPySpace).getLastD ' '])
          else none
        else if (r3.dropWhile (fun c => c ≠ ')')).head? = some ')' then
          some (String.mk g1, String.mk g2)
        else none
      | _ => none
  else none

/-- `FilterBuilder._process_function_with_value` (filter_builder.py:875-890):
`begins_with` / `contains`. -/
def processFunctionWithValue (expr funcName : String) (st : FBState) : String × FBState :=
  match matchFuncWithValue funcName expr.toList with
  | none => (expr, st)
  | some (attr, valueStr) =>
    let (namePh, st1) := getNamePlaceholder (trimPy attr) st
    let (valPh, st2) := getValuePlaceholder st1
    let st3 := addValue st2 valPh (parseValue (trimPy valueStr))
    (funcName ++ "(" ++ namePh ++ ", " ++ valPh ++ ")", st3)

/-- Operator characters of the size regex class `[><=!]`. -/
def isSizeOpChar (c : Char) : Bool :=
  c = '>' || c = '<' || c = '=' || c = '!'

/-- The anchored regex `size\((\w+)\)\s*([><=!]+)\s*(.+)` used by
`_process_size_function` (filter_builder.py:894), with the backtracking
cases in which the greedy `\s*` or `([><=!]+)` gives one character back so
that `(.+)` is non-empty. -/
def matchSize (cs : List Char) : Option (String × String × String) :=
  if startsWithChars "size(".toList cs then
    let rest := cs.drop 5
    let w := rest.takeWhile isWordChar
    if w.isEmpty then none
    else
      match rest.dropWhile isWordChar with
      | ')' :: r2 =>
        let r3 := r2.dropWhile isPySpace
        let opChars := r3.takeWhile isSizeOpChar
        if opChars.isEmpty then none
        else
          let r4 := r3.drop opChars.length
          let r5 := r4.dropWhile isPySpace
          if !r5.isEmpty then some (String.mk w, String.mk opChars, String.mk r5)
          else if !(r4.takeWhile isPySpace).isEmpty then
            some (String.mk w, String.mk opChars, String.mk [r4.getLastD ' '])
          else if opChars.length ≥ 2 then
            some (String.mk w, String.mk opChars.dropLast, String.mk [opChars.getLastD ' '])
          else none
      | _ => none
  else none

/-- `FilterBuilder._process_size_function` (filter_builder.py:892-910). -/
def processSizeFunction (expr : String) (st : FBState) : String × FBState :=
  match matchSize expr.toList with
  | none => (expr, st)
  | some (attr, op0, valueStr) =>
    let (namePh, st1) := getNamePlaceholder (trimPy attr) st
    let (valPh, st2) := getValuePlaceholder st1
    let st3 := addValue st2 valPh (parseValue (trimPy valueStr))
    let op := if trimPy op0 = "!=" then "<>" else trimPy op0
    ("size(" ++ namePh ++ ") " ++ op ++ " " ++ valPh, st3)

/-- The comparison-operator loop at the end of `_process_expression`
(filter_builder.py:756-758): the first operator of the list whose
space-padded form occurs in the string. -/
def firstCompOp (expr : String) : Option String :=
  ["!=", ">=", "<=", "=", ">", "<"].find? fun op => containsSub (" " ++ op ++ " ") expr

/-- `FilterBuilder._process_expression` (filter_builder.py:709-760).  The
recursion is fuelled; every recursive call is on a strictly shorter string,
so fuel `expr.length + 1` (supplied by `buildFilter`) never runs out. -/
def processExpression : Nat → String → FBState → String × FBState
  | 0, expr0, st => (trimPy expr0, st)
  | fuel + 1, expr0, st =>
    let expr := trimPy expr0
    let strip : Option String :=
      if strStartsWith expr "(" && strEndsWith expr ")" then
        let inner := trimPy (strDropRight (strDrop expr 1) 1)
        if countParens inner = 0 then some inner else none
      else none
    match strip with
    | some inner => processExpression fuel inner st
    | none =>
      if containsSub " BETWEEN " expr || containsSub " between " expr then
        processBetween expr st
      else
        match splitByOperator expr "AND" with
        | some (l, r) =>
          let (le, st1) := processExpression fuel l st
          let (re, st2) := processExpression fuel r st1
          ("(" ++ le ++ " AND " ++ re ++ ")", st2)
        | none =>
          match splitByOperator expr "OR" with
          | some (l, r) =>
            let (le, st1) := processExpression fuel l st
            let (re, st2) := processExpression fuel r st1
            ("(" ++ le ++ " OR " ++ re ++ ")", st2)
          | none =>
            if containsSub "attribute_exists(" expr then
              processFunction expr "attribute_exists" st
            else if containsSub "attribute_not_exists(" expr then
              processFunction expr "attribute_not_exists" st
            else if containsSub "begins_with(" expr then
              processFunctionWithValue expr "begins_with" st
            else if containsSub "contains(" expr then
              processFunctionWithValue expr "contains" st
            else if containsSub "size(" expr then
              processSizeFunction expr st
            else if containsSub " IN " expr || containsSub " in " expr then
              processIn expr st
            else
              match firstCompOp expr with
              | some op => processComparison expr op st
              | none => (expr, st)

/-- `FilterBuilder.build_filter` (filter_builder.py:640-681): empty input
short-circuits to an empty triple; otherwise validate, reset the compiler
state, and process.  The only raise in `build_filter` is the
`ValueError("Invalid filter syntax: ...")` on failed validation, modelled
as the `Except.error` case. -/
def buildFilter (filterStr : String) :
    Except String (String × List (String × WireVal) × List (String × String)) :=
  if filterStr = "" then .ok ("", [], [])
  else if !validateSyntaxBool filterStr then .error ("Invalid filter syntax: " ++ filterStr)
  else
    let (e, st) := processExpression (filterStr.length + 1) filterStr initFBState
    .ok (e, st.expression_attribute_values, st.expression_attribute_names)

/-- Success discriminator for `Except` results. -/
def isOkB {ε α : Type} : Except ε α → Bool
  | .ok _ => true
  | .error _ => false

/-- C10: `build_filter` applied to the empty string returns an empty
expression and empty value/name maps without raising; the
`if not filter_str` guard returns before `_validate_syntax` runs
(filter_builder.py:665-666). -/
theorem c10_empty_filter : buildFilter "" = .ok ("", [], []) := rfl

/-- Modelled from the spec's wording in C5: "unbalanced parentheses" in the
standard sense of proper nesting (the depth never goes negative and ends at
zero).  This is the claim-side notion, to be compared with the source's
count-equality check. -/
def specBalancedParensAux : Int → List Char → Bool
  | depth, [] => depth = 0
  | depth, c :: cs =>
    let d := updateDepth depth c
    if d < 0 then false else specBalancedParensAux d cs

/-- Properly nested parentheses (spec-side notion for C5). -/
def specBalancedParens (s : String) : Bool :=
  specBalancedParensAux 0 s.toList

set_option maxRecDepth 4000 in
/-- C5 counterexample: `"a = 1) AND (b = 2"` has improperly nested
parentheses (the claim demands an `InvalidFilterSyntax` raise), but
`build_filter` accepts it — `_validate_syntax` only compares the `(` and
`)` counts, which are equal here — and compiles it to a comparison whose
right-hand side is the raw remainder of the string. -/
theorem c5_counterexample :
    specBalancedParens "a = 1) AND (b = 2" = false ∧
    buildFilter "a = 1) AND (b = 2" =
      .ok ("a = :val0", [(":val0", serialize (.pStr "1) AND (b = 2"))], []) := by
  exact ⟨rfl, rfl⟩

/-- C5 (amended): for every non-empty filter string, `build_filter` raises
`InvalidFilterSyntax` exactly when the counts of `(` and `)` differ, or a
literal `()` substring occurs, or one of the consecutive-operator patterns
(`AND AND`, `OR OR`, `AND OR AND`, `OR AND OR`, `= =`, `> >`, `< <`,
case-insensitively, with arbitrary interior whitespace) occurs; every other
non-empty input compiles without raising. -/
theorem c5_validation_characterization (s : String) (hne : s ≠ "") :
    isOkB (buildFilter s) = true ↔
      (countChar '(' s = countChar ')' s ∧ containsSub "()" s = false ∧
        invalidPatterns.any (fun p => searchPat p s.toList) = false) := by
  have hbf : isOkB (buildFilter s) = validateSyntaxBool s := by
    unfold buildFilter
    rw [if_neg hne]
    cases hv : validateSyntaxBool s <;> simp [hv, isOkB]
  rw [hbf]
  unfold validateSyntaxBool
  split_ifs with h1 h2 h3
  · constructor
    · intro h
      simp at h
    · intro h
      exact absurd h.1 h1
  · constructor
    · intro h
      simp at h
    · intro h
      rw [h2] at h
      simp at h
  · constructor
    · intro h
      simp at h
    · intro h
      rw [h3] at h
      simp at h
  · constructor
    · intro _
      exact ⟨not_not.mp h1, by simpa using h2, by simpa using h3⟩
    · intro _
      rfl

theorem c5_witness :
    isOkB (buildFilter "age >= 21 AND begins_with(city, \"San\")") = true :=
  (c5_validation_characterization "age >= 21 AND begins_with(city, \"San\")"
    (by decide)).mpr (by decide)

theorem contains_iff_mem {α : Type} [BEq α] [LawfulBEq α] (l : List α) (a : α) :
    l.contains a = true ↔ a ∈ l :=
  List.elem_iff

/-- C6: `_get_name_placeholder` emits a fresh `#attrN` placeholder — built
from the running name counter, which is then incremented — and records the
placeholder → name mapping, exactly when the lower-cased attribute name is
in the reserved-keyword set or the name contains a `.` or `-` character;
every other name is returned verbatim with the state untouched
(filter_builder.py:602-610). -/
theorem c6_name_placeholder (attrName : String) (st : FBState) :
    (toLowerPy attrName ∈ RESERVED_KEYWORDS ∨ '.' ∈ attrName.toList ∨ '-' ∈ attrName.toList →
      getNamePlaceholder attrName st =
        ("#attr" ++ toString st.name_counter,
          { st with
              name_counter := st.name_counter + 1,
              expression_attribute_names := st.expression_attribute_names ++
                [("#attr" ++ toString st.name_counter, attrName)] })) ∧
    (toLowerPy attrName ∉ RESERVED_KEYWORDS ∧ '.' ∉ attrName.toList ∧ '-' ∉ attrName.toList →
      getNamePlaceholder attrName st = (attrName, st)) := by
  constructor
  · intro h
    have hb : needsNamePlaceholder attrName = true := by
      unfold needsNamePlaceholder
      simp only [Bool.or_eq_true, contains_iff_mem]
      rcases h with h | h | h
      · exact Or.inl (Or.inl h)
      · exact Or.inl (Or.inr h)
      · exact Or.inr h
    simp [getNamePlaceholder, hb]
  · intro ⟨h1, h2, h3⟩
    have hb : needsNamePlaceholder attrName = false := by
      unfold needsNamePlaceholder
      have hc : RESERVED_KEYWORDS.contains (toLowerPy attrName) = false :=
        Bool.eq_false_iff.mpr fun ht => h1 ((contains_iff_mem _ _).mp ht)
      have hd : attrName.toList.contains '.' = false :=
        Bool.eq_false_iff.mpr fun ht => h2 ((contains_iff_mem _ _).mp ht)
      have he : attrName.toList.contains '-' = false :=
        Bool.eq_false_iff.mpr fun ht => h3 ((contains_iff_mem _ _).mp ht)
      rw [hc, hd, he]
      rfl
    simp [getNamePlaceholder, hb]

set_option maxRecDepth 8000 in
theorem c6_witness :
    getNamePlaceholder "status" initFBState =
      ("#attr0", { initFBState with
          name_counter := 1,
          expression_attribute_names := [("#attr0", "status")] }) ∧
    getNamePlaceholder "user_id" initFBState = ("user_id", initFBState) :=
  ⟨(c6_name_placeholder "status" initFBState).1 (Or.inl (by decide)),
   (c6_name_placeholder "user_id" initFBState).2 ⟨by decide, by decide, by decide⟩⟩

/-! ## ParallelScanner (`core/parallel_scanner.py`)

The DynamoDB client is modelled per segment by the finite list of pages its
successive `scan` calls return; a page carries its items and whether a
`LastEvaluatedKey` continuation token is present.  The thread pool of
`parallel_scan` is modelled as a deterministic left-to-right fold over the
segments in submission order — the properties proved below (item counts and
truncation) are independent of the completion order of the futures. -/

/-- One wire response page of a `Scan`/`Query` call. -/
structure Page where
  items : List Item
  hasLastEvaluatedKey : Bool

/-- Python truthiness of an optional integer (`if limit:`): present and
non-zero. -/
def limitTruthy : Option Nat → Bool
  | some l => l != 0
  | none => false

/-- `ParallelScanner._scan_segment` (parallel_scanner.py:20-63): paginate,
accumulating items; when the truthy limit is reached, truncate to it and
stop; when a page has no `LastEvaluatedKey`, stop. -/
def scanSegmentAux : List Page → Option Nat → List Item → List Item
  | [], _, acc => acc
  | page :: rest, limit, acc =>
    let items := acc ++ page.items
    if limitTruthy limit && decide (items.length ≥ limit.getD 0) then
      items.take (limit.getD 0)
    else if !page.hasLastEvaluatedKey then items
    else scanSegmentAux rest limit items

/-- `_scan_segment` from an empty accumulator. -/
def scanSegment (pages : List Page) (limit : Option Nat) : List Item :=
  scanSegmentAux pages limit []

/-- A client's page list for one segment is well formed when it is the
whole finite segment: every page but the last carries a continuation token
and the last does not. -/
def wellFormedPages : List Page → Bool
  | [] => false
  | [p] => !p.hasLastEvaluatedKey
  | p :: rest => p.hasLastEvaluatedKey && wellFormedPages rest

/-- Total number of items held in a segment's pages. -/
def pagesItemCount (pages : List Page) : Nat :=
  (pages.map (fun p => p.items.length)).sum

/-- Total number of items held across all segments. -/
def segmentsItemCount (segments : List (List Page)) : Nat :=
  (segments.map pagesItemCount).sum

/-- The `as_completed` collection loop of `parallel_scan`
(parallel_scanner.py:117-131), in submission order: extend the merged list
with each segment result and stop as soon as the truthy limit is reached
(remaining futures are cancelled). -/
def collectSegmentsAux (limit : Option Nat) : List (List Item) → List Item → List Item
  | [], acc => acc
  | items :: rest, acc =>
    let acc' := acc ++ items
    if limitTruthy limit && decide (acc'.length ≥ limit.getD 0) then acc'
    else collectSegmentsAux limit rest acc'

/-- The final global truncation of `parallel_scan`
(parallel_scanner.py:150-151): `if limit and len(all_items) > limit:
all_items = all_items[:limit]`. -/
def truncToLimit (limit : Option Nat) (allItems : List Item) : List Item :=
  if limitTruthy limit && decide (allItems.length > limit.getD 0) then
    allItems.take (limit.getD 0)
  else allItems

/-- `ParallelScanner.parallel_scan` (parallel_scanner.py:65-153):
`limit_per_segment = int(limit * 1.5 / total_segments) + 50` when a truthy
limit is given (exact arithmetic: `int` truncation is Nat division; the
float rounding of the source differs only for astronomically large limits),
each segment scanned with that cap, results merged with early stop, and the
merged list truncated to the global limit. -/
def parallelScan (segments : List (List Page)) (limit : Option Nat) : List Item :=
  let limitPerSegment : Option Nat :=
    if limitTruthy limit then some (3 * limit.getD 0 / (2 * segments.length) + 50) else none
  let results := segments.map fun segPages => scanSegment segPages limitPerSegment
  truncToLimit limit (collectSegmentsAux limit results [])

theorem limitTruthy_pos (L : Nat) (hL : 0 < L) : limitTruthy (some L) = true := by
  simp [limitTruthy]
  omega

theorem scanSegmentAux_length (l : Nat) (hl : 0 < l) :
    ∀ (pages : List Page) (acc : List Item), wellFormedPages pages = true →
      acc.length < l →
      (scanSegmentAux pages (some l) acc).length = min (acc.length + pagesItemCount pages) l := by
  intro pages
  induction pages with
  | nil => intro acc hwf _; simp [wellFormedPages] at hwf
  | cons p rest ih =>
    intro acc hwf hacc
    simp only [scanSegmentAux, limitTruthy_pos l hl, Bool.true_and, Option.getD_some]
    by_cases hge : (acc ++ p.items).length ≥ l
    · rw [if_pos (by simpa using hge)]
      simp only [List.length_append] at hge
      simp only [List.length_take, List.length_append, pagesItemCount, List.map_cons,
        List.sum_cons, Nat.min_def]
      split_ifs <;> omega
    · rw [if_neg (by simpa using hge)]
      simp only [List.length_append] at hge
      cases hLEK : p.hasLastEvaluatedKey with
      | false =>
        have hrest : rest = [] := by
          cases rest with
          | nil => rfl
          | cons q qs =>
            simp only [wellFormedPages, hLEK, Bool.false_and] at hwf
            exact Bool.noConfusion hwf
        subst hrest
        simp only [Bool.not_false, if_pos, List.length_append, pagesItemCount,
          List.map_cons, List.map_nil, List.sum_cons, List.sum_nil, Nat.min_def]
        split_ifs <;> omega
      | true =>
        have hwfrest : wellFormedPages rest = true := by
          cases rest with
          | nil =>
            simp only [wellFormedPages, hLEK] at hwf
            exact Bool.noConfusion hwf
          | cons q qs => simpa [wellFormedPages, hLEK] using hwf
        simp only [Bool.not_true, Bool.false_eq_true, if_false]
        rw [ih (acc ++ p.items) hwfrest (by simp only [List.length_append]; omega)]
        simp only [List.length_append, pagesItemCount, List.map_cons, List.sum_cons]
        omega

theorem collectSegmentsAux_length (L : Nat) (hL : 0 < L) :
    ∀ (results : List (List Item)) (acc : List Item), acc.length < L →
      min (collectSegmentsAux (some L) results acc).length L =
        min (acc.length + (results.map List.length).sum) L := by
  intro results
  induction results with
  | nil =>
    intro acc hacc
    simp only [collectSegmentsAux, List.map_nil, List.sum_nil]
    omega
  | cons items rest ih =>
    intro acc hacc
    simp only [collectSegmentsAux, limitTruthy_pos L hL, Bool.true_and, Option.getD_some]
    by_cases hge : (acc ++ items).length ≥ L
    · rw [if_pos (by simpa using hge)]
      simp only [List.length_append] at hge
      simp only [List.length_append, List.map_cons, List.sum_cons, Nat.min_def]
      split_ifs <;> omega
    · rw [if_neg (by simpa using hge)]
      simp only [List.length_append] at hge
      rw [ih (acc ++ items) (by simp only [List.length_append]; omega)]
      simp only [List.length_append, List.map_cons, List.sum_cons]
      omega

theorem truncToLimit_length (L : Nat) (hL : 0 < L) (xs : List Item) :
    (truncToLimit (some L) xs).length = min xs.length L := by
  unfold truncToLimit
  simp only [limitTruthy_pos L hL, Bool.true_and, Option.getD_some]
  by_cases h : xs.length > L
  · rw [if_pos (by simpa using h)]
    simp only [List.length_take, Nat.min_def]
    split_ifs <;> omega
  · rw [if_neg (by simpa using h)]
    simp only [Nat.min_def]
    split_ifs <;> omega

theorem sum_min_ge (c : Nat) :
    ∀ (segments : List (List Page)),
      min (segmentsItemCount segments) c ≤
        (segments.map (fun seg => min (pagesItemCount seg) c)).sum := by
  intro segments
  induction segments with
  | nil => simp [segmentsItemCount]
  | cons seg rest ih =>
    simp only [segmentsItemCount, List.map_cons, List.sum_cons] at *
    rcases Nat.le_total c (pagesItemCount seg) with h | h
    · have h1 : min (pagesItemCount seg + (rest.map pagesItemCount).sum) c = c := by omega
      have h2 : min (pagesItemCount seg) c = c := by omega
      omega
    · rcases Nat.le_total c ((rest.map pagesItemCount).sum) with h2 | h2
      · have hm : min ((rest.map pagesItemCount).sum) c = c := by omega
        rw [hm] at ih
        omega
      · have hm : min ((rest.map pagesItemCount).sum) c = (rest.map pagesItemCount).sum := by
          omega
        rw [hm] at ih
        omega

theorem parallelScan_length (segments : List (List Page)) (L : Nat) (hL : 0 < L)
    (hwf : ∀ seg ∈ segments, wellFormedPages seg = true) :
    (parallelScan segments (some L)).length =
      min ((segments.map (fun seg =>
        min (pagesItemCount seg) (3 * L / (2 * segments.length) + 50))).sum) L := by
  have hcap : 0 < 3 * L / (2 * segments.length) + 50 := Nat.add_pos_right _ (by norm_num)
  unfold parallelScan
  simp only [limitTruthy_pos L hL, if_pos, Option.getD_some]
  rw [truncToLimit_length L hL]
  have hres : (segments.map fun segPages =>
      scanSegment segPages (some (3 * L / (2 * segments.length) + 50))).map List.length =
      segments.map (fun seg => min (pagesItemCount seg) (3 * L / (2 * segments.length) + 50)) := by
    rw [List.map_map]
    apply List.map_congr_left
    intro seg hseg
    have hs := scanSegmentAux_length (3 * L / (2 * segments.length) + 50) hcap seg []
      (hwf seg hseg) (by simp only [List.length_nil]; exact hcap)
    simp only [Function.comp_apply, scanSegment, hs, List.length_nil, Nat.zero_add]
  have hc := collectSegmentsAux_length L hL
    (segments.map fun segPages =>
      scanSegment segPages (some (3 * L / (2 * segments.length) + 50)))
    [] (by simp only [List.length_nil]; exact hL)
  rw [hres] at hc
  simpa using hc

set_option maxRecDepth 4000 in
/-- C4 counterexample: with `limit = 250` over 4 segments whose items all
sit in one segment, the per-segment cap
`int(250 * 1.5 / 4) + 50 = 143` silently discards items: the segments
together contain 250 ≥ 250 matching items, yet `parallel_scan` returns only
143 — not exactly 250 as the claim requires. -/
theorem c4_counterexample :
    segmentsItemCount [[Page.mk (List.replicate 250 []) false], [Page.mk [] false],
        [Page.mk [] false], [Page.mk [] false]] = 250 ∧
    (parallelScan [[Page.mk (List.replicate 250 []) false], [Page.mk [] false],
        [Page.mk [] false], [Page.mk [] false]] (some 250)).length = 143 :=
  ⟨rfl, rfl⟩

/-- C4 (amended): for every limit `L ≥ 1` and every list of well-formed
segments, `parallel_scan` returns at most `L` items, and exactly `L` items
when the segments together contain at least `L` items **and** the
per-segment cap `int(L * 1.5 / segments) + 50` is at least `L` (which holds
in particular for `L = 50` over 4 segments, where the cap is 68); without
the cap condition a segment holding more than the cap can make the result
fall short of `L`. -/
theorem c4_parallel_scan_limit (segments : List (List Page)) (L : Nat) (hL : 0 < L)
    (hwf : ∀ seg ∈ segments, wellFormedPages seg = true) :
    (parallelScan segments (some L)).length ≤ L ∧
    (L ≤ 3 * L / (2 * segments.length) + 50 →
      L ≤ segmentsItemCount segments →
      (parallelScan segments (some L)).length = L) := by
  have hform := parallelScan_length segments L hL hwf
  constructor
  · rw [hform]
    exact Nat.min_le_right _ _
  · intro hcap htot
    rw [hform]
    have hstep := sum_min_ge (3 * L / (2 * segments.length) + 50) segments
    have hmin1 : L ≤ min (segmentsItemCount segments) (3 * L / (2 * segments.length) + 50) :=
      le_min htot hcap
    exact Nat.min_eq_right (le_trans hmin1 hstep)

/-! ## Exporter pagination and failure propagation
(`core/exporter.py`, `commands/export_table.py`)

A botocore `ClientError` carries the error code inspected by the caller.
The client is modelled by the list of results its successive
`scan`/`query` calls produce: a page, or a raised error. -/

/-- A raised `botocore.exceptions.ClientError`, identified by
`e.response["Error"]["Code"]`. -/
structure ClientError where
  code : String

/-- The error code the multi-query path recovers from
(export_table.py:488). -/
def throughputExceededCode : String := "ProvisionedThroughputExceededException"

/-- What one `dynamodb.scan` / `dynamodb.query` call returns. -/
abbrev CallResult := Except ClientError Page

/-- The pagination loop of `DynamoDBExporter.scan_table`
(exporter.py:215-229): accumulate page items, truncate and stop at a truthy
limit, stop when a page carries no `LastEvaluatedKey`.  `scan_table` has no
`try`/`except`: a raised `ClientError` propagates immediately, whatever its
code.  An exhausted response list is treated as a final page. -/
def scanTablePaged : List CallResult → Option Nat → List Item → Except ClientError (List Item)
  | [], _, acc => .ok acc
  | r :: rest, limit, acc =>
    match r with
    | .error e => .error e
    | .ok page =>
      let items := acc ++ page.items
      if limitTruthy limit && decide (items.length ≥ limit.getD 0) then
        .ok (items.take (limit.getD 0))
      else if !page.hasLastEvaluatedKey then .ok items
      else scanTablePaged rest limit items

/-- `DynamoDBExporter.scan_table` (exporter.py:173-233) on the responses of
successive `dynamodb.scan` calls. -/
def scan_table (responses : List CallResult) (limit : Option Nat) :
    Except ClientError (List Item) :=
  scanTablePaged responses limit []

/-- The pagination loop of `DynamoDBExporter.query_table`
(exporter.py:270-282), identical in shape to `scan_table`'s; the second
component is the client's remaining response stream, consumed by any later
call on the same client. -/
def queryTableRun : List CallResult → Option Nat → List Item →
    Except ClientError (List Item) × List CallResult
  | [], _, acc => (.ok acc, [])
  | r :: rest, limit, acc =>
    match r with
    | .error e => (.error e, rest)
    | .ok page =>
      let items := acc ++ page.items
      if limitTruthy limit && decide (items.length ≥ limit.getD 0) then
        (.ok (items.take (limit.getD 0)), rest)
      else if !page.hasLastEvaluatedKey then (.ok items, rest)
      else queryTableRun rest limit items

/-- `DynamoDBExporter.query_table` (exporter.py:235-286). -/
def query_table (responses : List CallResult) (limit : Option Nat) :
    Except ClientError (List Item) × List CallResult :=
  queryTableRun responses limit []

/-- The `try`/`except` around each query of the multi-query loop of
`export_table_command` (export_table.py:453-516): run `query_table`; when
it raises a `ClientError` with code
`ProvisionedThroughputExceededException`, wait one second (`time.sleep(1)`,
outside the model) and run `query_table` once more, whose outcome — success
or any error — is final; any other error code re-raises immediately.  The
source has exactly two textual call sites and no loop, so at most one retry
can ever happen. -/
def queryWithSingleRetry (responses : List CallResult) (limit : Option Nat) :
    Except ClientError (List Item) × List CallResult :=
  match query_table responses limit with
  | (.ok items, rest) => (.ok items, rest)
  | (.error e, rest) =>
    if e.code = throughputExceededCode then query_table rest limit
    else (.error e, rest)

/-- C2 counterexample: a throughput-exceeded error on a Scan page is *not*
retried: with a client whose first `scan` call raises
`ProvisionedThroughputExceededException` and whose second call would
deliver the final page, `scan_table` propagates the error instead of
recovering — the claim's "recovers locally with exactly one retry" fails
for Scan pages. -/
theorem c2_counterexample :
    scan_table [.error ⟨"ProvisionedThroughputExceededException"⟩,
        .ok (Page.mk [[("id", AttrValue.vNum 1)]] false)] none =
      .error ⟨"ProvisionedThroughputExceededException"⟩ ∧
    scan_table [.error ⟨"ProvisionedThroughputExceededException"⟩,
        .ok (Page.mk [[("id", AttrValue.vNum 1)]] false)] none ≠
      .ok [[("id", AttrValue.vNum 1)]] := by
  refine ⟨rfl, ?_⟩
  intro h
  exact Except.noConfusion h

/-- C2 (amended): `scan_table` never retries — any `ClientError` raised by
a scan page, throughput-exceeded included, propagates immediately as fatal.
Only the multi-query path retries: a
`ProvisionedThroughputExceededException` from a `query_table` call triggers
exactly one retry of that query (after a fixed 1-second sleep), whose
outcome is final — in particular a second failure, of any code, is fatal
and no third attempt exists; a first failure with any other code is fatal
immediately. -/
theorem c2_retry_semantics :
    (∀ (e : ClientError) (rest : List CallResult) (limit : Option Nat) (acc : List Item),
      scanTablePaged (.error e :: rest) limit acc = .error e) ∧
    (∀ (e1 : ClientError) (rest : List CallResult) (limit : Option Nat),
      e1.code = throughputExceededCode →
      queryWithSingleRetry (.error e1 :: rest) limit = query_table rest limit) ∧
    (∀ (e1 e2 : ClientError) (rest : List CallResult) (limit : Option Nat),
      e1.code = throughputExceededCode →
      queryWithSingleRetry (.error e1 :: .error e2 :: rest) limit = (.error e2, rest)) ∧
    (∀ (e1 : ClientError) (rest : List CallResult) (limit : Option Nat),
      e1.code ≠ throughputExceededCode →
      queryWithSingleRetry (.error e1 :: rest) limit = (.error e1, rest)) := by
  refine ⟨fun e rest limit acc => rfl, fun e1 rest limit h1 => ?_, fun e1 e2 rest limit h1 => ?_,
    fun e1 rest limit h1 => ?_⟩
  · simp only [queryWithSingleRetry, query_table, queryTableRun, h1, if_pos]
  · simp only [queryWithSingleRetry, query_table, queryTableRun, h1, if_pos]
  · simp only [queryWithSingleRetry, query_table, queryTableRun, if_neg h1]

theorem c2_witness :
    scanTablePaged [.error ⟨"ProvisionedThroughputExceededException"⟩,
        .ok (Page.mk [] false)] (some 10) [] =
      .error ⟨"ProvisionedThroughputExceededException"⟩ ∧
    queryWithSingleRetry [.error ⟨"ProvisionedThroughputExceededException"⟩,
        .error ⟨"InternalServerError"⟩] (some 10) =
      (.error ⟨"InternalServerError"⟩, []) :=
  ⟨c2_retry_semantics.1 ⟨"ProvisionedThroughputExceededException"⟩
      [.ok (Page.mk [] false)] (some 10) [],
   c2_retry_semantics.2.2.1 ⟨"ProvisionedThroughputExceededException"⟩
      ⟨"InternalServerError"⟩ [] (some 10) rfl⟩

/-! ## Index detection and strategy selection (`commands/export_table.py`)

`_detect_usable_index` works by regex matching over the compiled filter
expression; the specific regular expressions are implemented as character
scanners, as before. -/

/-- One `{AttributeName, KeyType}` entry of a key schema. -/
structure KeySchemaEntry where
  attributeName : String
  keyType : String

/-- A GlobalSecondaryIndex descriptor as consumed from `get_table_info`;
`indexStatus` models `gsi.get("IndexStatus", "ACTIVE")`. -/
structure GSI where
  indexName : String
  indexStatus : String
  keySchema : List KeySchemaEntry

/-- The slice of `DynamoDBExporter.get_table_info` (exporter.py:623-638)
consumed by `_detect_usable_index` and the export command. -/
structure TableInfo where
  key_schema : List KeySchemaEntry
  global_indexes : List GSI
  item_count : Nat

/-- Attribute-alias resolution (export_table.py:68-70, 121-123):
`names.get(attr, attr)` when the reference starts with `#` and the names
map is truthy. -/
def resolveAttr (names : List (String × String)) (attr : String) : String :=
  if strStartsWith attr "#" && !names.isEmpty then
    match names.find? (fun kv => kv.1 = attr) with
    | some kv => kv.2
    | none => attr
  else attr

/-- One match of the equality regex `(#?\w+)\s*=\s*(:\w+)`
(export_table.py:46, 111) at the head of `cs`: the groups and the suffix
after the match.  The optional `#` cannot backtrack (a `#` is not a word
character), and the greedy word/whitespace runs are exact because the
following literal is never a word/whitespace character. -/
def matchEqualityAt (cs : List Char) : Option ((String × String) × List Char) :=
  let hashed := cs.head? = some '#'
  let cs1 := if hashed then cs.drop 1 else cs
  let w := cs1.takeWhile isWordChar
  if w.isEmpty then none
  else
    match (cs1.dropWhile isWordChar).dropWhile isPySpace with
    | '=' :: r2 =>
      match r2.dropWhile isPySpace with
      | ':' :: r4 =>
        let v := r4.takeWhile isWordChar
        if v.isEmpty then none
        else some (((if hashed then "#" ++ String.mk w else String.mk w),
          ":" ++ String.mk v), r4.dropWhile isWordChar)
      | _ => none
    | _ => none

/-- `re.findall` for the equality regex: scan left to right, matches
non-overlapping.  Fuelled by the string length: each step consumes at least
one character. -/
def findEqualityMatchesAux : Nat → List Char → List (String × String)
  | 0, _ => []
  | _ + 1, [] => []
  | fuel + 1, c :: cs =>
    match matchEqualityAt (c :: cs) with
    | some (m, rest) => m :: findEqualityMatchesAux fuel rest
    | none => findEqualityMatchesAux fuel cs

/-- `re.findall(r"(#?\w+)\s*=\s*(:\w+)", filterExpression)`. -/
def findEqualityMatches (s : String) : List (String × String) :=
  findEqualityMatchesAux s.length s.toList

/-- `re.sub(r"\s+", " ", ·)`: collapse whitespace runs to single spaces. -/
def collapseWsAux : Bool → List Char → List Char
  | _, [] => []
  | prevWs, c :: cs =>
    if isPySpace c then
      if prevWs then collapseWsAux true cs else ' ' :: collapseWsAux true cs
    else c :: collapseWsAux false cs

/-- The OR detection of `_detect_usable_index` (export_table.py:40-43):
replace parentheses by spaces, collapse whitespace, upper-case, and look
for `" OR "`. -/
def hasTopOr (filterExpression : String) : Bool :=
  let noParens := filterExpression.toList.map fun c =>
    if c = '(' || c = ')' then ' ' else c
  containsSubAux " OR ".toList ((collapseWsAux false noParens).map Char.toUpper)

/-- `re.split(r"\s+(?:OR|or)\s+", filter)` (export_table.py:350).  Fuelled
by the string length: each step consumes at least one character, and the
empty string yields `[""]` like `re.split`. -/
def splitOrPartsAux : Nat → List Char → List Char → List String
  | 0, revCur, rest => [String.mk (revCur.reverse ++ rest)]
  | _ + 1, revCur, [] => [String.mk revCur.reverse]
  | fuel + 1, revCur, c :: cs =>
    match matchOpSep "OR" (c :: cs) with
    | some rest => String.mk revCur.reverse :: splitOrPartsAux fuel [] rest
    | none => splitOrPartsAux fuel (c :: revCur) cs

/-- The OR-branch list `or_parts` of `export_table_command`. -/
def splitOrParts (s : String) : List String :=
  splitOrPartsAux s.length [] s.toList

/-- Match the condition-removal regex
`\s*(?:AND|OR)?\s*ATTR\s*=\s*VP\s*(?:AND|OR)?` (export_table.py:152-156)
at the head of `cs`, returning the suffix after the match.  The optional
keyword group is tried keyword-first, falling back to the empty
alternative (regex backtracking on `(?:AND|OR)?`). -/
def matchCondAt (attrRef valueRef : String) (cs : List Char) : Option (List Char) :=
  let tryFrom (start : List Char) : Option (List Char) :=
    let s1 := start.dropWhile isPySpace
    if startsWithChars attrRef.toList s1 then
      match (s1.drop attrRef.length).dropWhile isPySpace with
      | '=' :: s3 =>
        let s4 := s3.dropWhile isPySpace
        if startsWithChars valueRef.toList s4 then
          let s5 := (s4.drop valueRef.length).dropWhile isPySpace
          if startsWithChars "AND".toList s5 then some (s5.drop 3)
          else if startsWithChars "OR".toList s5 then some (s5.drop 2)
          else some s5
        else none
      | _ => none
    else none
  let afterWs1 := cs.dropWhile isPySpace
  let withKw : Option (List Char) :=
    if startsWithChars "AND".toList afterWs1 then tryFrom (afterWs1.drop 3)
    else if startsWithChars "OR".toList afterWs1 then tryFrom (afterWs1.drop 2)
    else none
  match withKw with
  | some r => some r
  | none => tryFrom afterWs1

/-- `re.sub(condition_pattern, " ", remaining_filter)`: replace each
non-overlapping match by a single space.  Fuelled by the string length:
every step consumes at least one character (the pattern cannot match the
empty string, as the attribute literal is non-empty). -/
def removeCondAux (attrRef valueRef : String) : Nat → List Char → List Char
  | 0, cs => cs
  | _ + 1, [] => []
  | fuel + 1, c :: cs =>
    match matchCondAt attrRef valueRef (c :: cs) with
    | some rest => ' ' :: removeCondAux attrRef valueRef fuel rest
    | none => c :: removeCondAux attrRef valueRef fuel cs

/-- `re.sub(r"^\s*(?:AND|OR)\s+", "", ·)` (export_table.py:159, 189). -/
def stripLeadingAndOr (s : String) : String :=
  let c1 := s.toList.dropWhile isPySpace
  let afterKw : Option (List Char) :=
    if startsWithChars "AND".toList c1 then some (c1.drop 3)
    else if startsWithChars "OR".toList c1 then some (c1.drop 2)
    else none
  match afterKw with
  | some rest =>
    if (rest.takeWhile isPySpace).isEmpty then s
    else String.mk (rest.dropWhile isPySpace)
  | none => s

/-- `re.sub(r"\s+(?:AND|OR)\s*$", "", ·)` (export_table.py:160, 190),
implemented on the reversed character list. -/
def stripTrailingAndOr (s : String) : String :=
  let r1 := s.toList.reverse.dropWhile isPySpace
  let afterKw : Option (List Char) :=
    if startsWithChars "DNA".toList r1 then some (r1.drop 3)
    else if startsWithChars "RO".toList r1 then some (r1.drop 2)
    else none
  match afterKw with
  | some rest =>
    if (rest.takeWhile isPySpace).isEmpty then s
    else String.mk (rest.dropWhile isPySpace).reverse
  | none => s

/-- The `remaining_filter` computation of the no-OR path of
`_detect_usable_index` (export_table.py:150-164, 183-194): remove the
matched key condition, strip, clean dangling `AND`/`OR` at either end, and
drop the filter entirely when nothing (or a bare `()`) is left. -/
def remainingFilterAfterRemoval (filterExpression attrRef valueRef : String) : Option String :=
  let removed := String.mk
    (removeCondAux attrRef valueRef filterExpression.length filterExpression.toList)
  let r1 := trimPy removed
  let r2 := trimPy (stripTrailingAndOr (stripLeadingAndOr r1))
  if r2 = "" ∨ r2 = "()" then none else some r2

/-- An entry of the `indexed_attrs` list collected by the OR branch of
`_detect_usable_index` (export_table.py:72-97): `index_name = none` means
the main table. -/
structure IndexedAttr where
  key_attribute : String
  index_name : Option String
  attr_ref : String
  value_ref : String

/-- The GSI loop of the OR branch (export_table.py:56-79): for each active
GSI, for each HASH key of its schema, every equality match resolving to
that key contributes an entry. -/
def gsiIndexedAttrs (gsis : List GSI) (eqMatches : List (String × String))
    (names : List (String × String)) : List IndexedAttr :=
  gsis.flatMap fun gsi =>
    if gsi.indexStatus ≠ "ACTIVE" then []
    else
      gsi.keySchema.flatMap fun key =>
        if key.keyType = "HASH" then
          eqMatches.filterMap fun m =>
            if resolveAttr names m.1 = key.attributeName then
              some ⟨key.attributeName, some gsi.indexName, m.1, m.2⟩
            else none
        else []

/-- The main-table loop of the OR branch (export_table.py:82-97). -/
def mainIndexedAttrs (keySchema : List KeySchemaEntry) (eqMatches : List (String × String))
    (names : List (String × String)) : List IndexedAttr :=
  keySchema.flatMap fun key =>
    if key.keyType = "HASH" then
      eqMatches.filterMap fun m =>
        if resolveAttr names m.1 = key.attributeName then
          some ⟨key.attributeName, none, m.1, m.2⟩
        else none
    else []

/-- The Query information returned by the no-OR path of
`_detect_usable_index` (export_table.py:166-172, 196-202). -/
structure DetectedIndex where
  index_name : Option String
  key_condition : String
  remaining_filter : Option String
  key_attribute : String

/-- Result of `_detect_usable_index`: `noneApplicable` is Python `None`,
`orInfo` the `has_or = True` dictionary, `queryInfo` the `has_or = False`
dictionary. -/
inductive DetectResult where
  | noneApplicable
  | orInfo (indexedAttrs : List IndexedAttr)
  | queryInfo (d : DetectedIndex)

/-- The last-wins equality-conditions dictionary of the no-OR path
(export_table.py:117-128): later matches on the same resolved attribute
overwrite earlier ones. -/
def eqConditionFor (eqMatches : List (String × String)) (names : List (String × String))
    (resolved : String) : Option (String × String) :=
  (eqMatches.filter (fun m => resolveAttr names m.1 = resolved)).getLast?

/-- The GSI search of the no-OR path (export_table.py:130-172): first
active GSI, first HASH key of its schema with an equality condition. -/
def findGsiQuery (filterExpression : String) (gsis : List GSI)
    (eqMatches : List (String × String)) (names : List (String × String)) :
    Option DetectedIndex :=
  gsis.findSome? fun gsi =>
    if gsi.indexStatus ≠ "ACTIVE" then none
    else
      gsi.keySchema.findSome? fun key =>
        if key.keyType = "HASH" then
          match eqConditionFor eqMatches names key.attributeName with
          | some m =>
            some ⟨some gsi.indexName, m.1 ++ " = " ++ m.2,
              remainingFilterAfterRemoval filterExpression m.1 m.2, key.attributeName⟩
          | none => none
        else none

/-- The main-table search of the no-OR path (export_table.py:174-202). -/
def findMainQuery (filterExpression : String) (keySchema : List KeySchemaEntry)
    (eqMatches : List (String × String)) (names : List (String × String)) :
    Option DetectedIndex :=
  keySchema.findSome? fun key =>
    if key.keyType = "HASH" then
      match eqConditionFor eqMatches names key.attributeName with
      | some m =>
        some ⟨none, m.1 ++ " = " ++ m.2,
          remainingFilterAfterRemoval filterExpression m.1 m.2, key.attributeName⟩
      | none => none
    else none

/-- `_detect_usable_index` (export_table.py:20-204). -/
def detectUsableIndex (filterExpression : String) (names : List (String × String))
    (tableInfo : TableInfo) : DetectResult :=
  if filterExpression = "" then .noneApplicable
  else if hasTopOr filterExpression then
    let eqMatches := findEqualityMatches filterExpression
    if eqMatches.isEmpty then .noneApplicable
    else
      let indexedAttrs := gsiIndexedAttrs tableInfo.global_indexes eqMatches names ++
        mainIndexedAttrs tableInfo.key_schema eqMatches names
      if indexedAttrs.isEmpty then .noneApplicable else .orInfo indexedAttrs
  else
    let eqMatches := findEqualityMatches filterExpression
    if eqMatches.isEmpty then .noneApplicable
    else
      match findGsiQuery filterExpression tableInfo.global_indexes eqMatches names with
      | some d => .queryInfo d
      | none =>
        match findMainQuery filterExpression tableInfo.key_schema eqMatches names with
        | some d => .queryInfo d
        | none => .noneApplicable

/-- The multi-query condition of `export_table_command`
(export_table.py:350-353): `can_multi_query = len(or_parts) ==
len(indexed_attrs) and len(or_parts) <= 5`, applied when
`len(indexed_attrs) >= 2`. -/
def canMultiQuery (fstr : String) (attrs : List IndexedAttr) : Bool :=
  (decide ((splitOrParts fstr).length = attrs.length) &&
    decide ((splitOrParts fstr).length ≤ 5)) && decide (attrs.length ≥ 2)

/-- The overall MultiQuery decision for the auto-detection case (no
explicit key condition or index given): `_detect_usable_index` reports an
OR filter with indexed equality attributes, and `can_multi_query` holds
(export_table.py:344-371). -/
def multiQueryDecision (filterExpression : String) (names : List (String × String))
    (tableInfo : TableInfo) : Bool :=
  match detectUsableIndex filterExpression names tableInfo with
  | .orInfo attrs => canMultiQuery filterExpression attrs
  | _ => false

/-- Modelled from the spec's wording in C3: the attribute is a HASH key of
an active GSI or of the main table. -/
def isHashKeyOfActiveGsiOrMain (attr : String) (t : TableInfo) : Bool :=
  t.global_indexes.any (fun gsi => gsi.indexStatus = "ACTIVE" &&
    gsi.keySchema.any (fun k => k.keyType = "HASH" && k.attributeName = attr)) ||
  t.key_schema.any (fun k => k.keyType = "HASH" && k.attributeName = attr)

/-- Modelled from the spec's wording in C3: an OR-branch "resolves to an
equality condition on a HASH-indexed attribute" — the branch text contains
an equality condition whose (alias-resolved) attribute is such a key. -/
def specBranchIndexedEquality (branch : String) (names : List (String × String))
    (t : TableInfo) : Bool :=
  (findEqualityMatches branch).any fun m =>
    isHashKeyOfActiveGsiOrMain (resolveAttr names m.1) t

theorem mem_gsiIndexedAttrs {gsis : List GSI} {eqMatches : List (String × String)}
    {names : List (String × String)} {a : IndexedAttr}
    (h : a ∈ gsiIndexedAttrs gsis eqMatches names) :
    (∃ gsi ∈ gsis, gsi.indexStatus = "ACTIVE" ∧
      ∃ k ∈ gsi.keySchema, k.keyType = "HASH" ∧ k.attributeName = a.key_attribute) ∧
    resolveAttr names a.attr_ref = a.key_attribute ∧
    (a.attr_ref, a.value_ref) ∈ eqMatches := by
  simp only [gsiIndexedAttrs, List.mem_flatMap] at h
  obtain ⟨gsi, hgsi, h2⟩ := h
  by_cases hact : gsi.indexStatus = "ACTIVE"
  · rw [if_neg (not_not_intro hact)] at h2
    simp only [List.mem_flatMap] at h2
    obtain ⟨k, hk, h3⟩ := h2
    by_cases hhash : k.keyType = "HASH"
    · rw [if_pos hhash] at h3
      simp only [List.mem_filterMap] at h3
      obtain ⟨m, hm, h4⟩ := h3
      by_cases hres : resolveAttr names m.1 = k.attributeName
      · rw [if_pos hres] at h4
        cases h4
        exact ⟨⟨gsi, hgsi, hact, k, hk, hhash, rfl⟩, hres, hm⟩
      · rw [if_neg hres] at h4
        cases h4
    · rw [if_neg hhash] at h3
      simp at h3
  · rw [if_pos hact] at h2
    simp at h2

theorem mem_mainIndexedAttrs {keySchema : List KeySchemaEntry}
    {eqMatches : List (String × String)} {names : List (String × String)} {a : IndexedAttr}
    (h : a ∈ mainIndexedAttrs keySchema eqMatches names) :
    (∃ k ∈ keySchema, k.keyType = "HASH" ∧ k.attributeName = a.key_attribute) ∧
    resolveAttr names a.attr_ref = a.key_attribute ∧
    (a.attr_ref, a.value_ref) ∈ eqMatches := by
  simp only [mainIndexedAttrs, List.mem_flatMap] at h
  obtain ⟨k, hk, h3⟩ := h
  by_cases hhash : k.keyType = "HASH"
  · rw [if_pos hhash] at h3
    simp only [List.mem_filterMap] at h3
    obtain ⟨m, hm, h4⟩ := h3
    by_cases hres : resolveAttr names m.1 = k.attributeName
    · rw [if_pos hres] at h4
      cases h4
      exact ⟨⟨k, hk, hhash, rfl⟩, hres, hm⟩
    · rw [if_neg hres] at h4
      cases h4
  · rw [if_neg hhash] at h3
    simp at h3

set_option maxRecDepth 8000 in
/-- C3 counterexample: for the filter
`"(a = :v0 AND x = :v1) OR attribute_exists(y)"` against a table with
active GSIs hashed on `a` and `x`, the planner chooses MultiQuery — the
number of OR-parts (2) equals the number of detected indexed equality
conditions, both of which sit inside the *first* branch — even though the
second OR-branch `attribute_exists(y)` resolves to no equality condition
on any indexed attribute.  The claim's "only when every OR-branch resolves
to an equality condition on a HASH-indexed attribute" is false: the source
compares counts only (export_table.py:350-353). -/
theorem c3_counterexample :
    multiQueryDecision "(a = :v0 AND x = :v1) OR attribute_exists(y)" []
      ⟨[⟨"pk", "HASH"⟩],
        [⟨"gsi-a", "ACTIVE", [⟨"a", "HASH"⟩]⟩, ⟨"gsi-x", "ACTIVE", [⟨"x", "HASH"⟩]⟩], 0⟩ = true ∧
    splitOrParts "(a = :v0 AND x = :v1) OR attribute_exists(y)" =
      ["(a = :v0 AND x = :v1)", "attribute_exists(y)"] ∧
    specBranchIndexedEquality "attribute_exists(y)" []
      ⟨[⟨"pk", "HASH"⟩],
        [⟨"gsi-a", "ACTIVE", [⟨"a", "HASH"⟩]⟩, ⟨"gsi-x", "ACTIVE", [⟨"x", "HASH"⟩]⟩], 0⟩ = false :=
  ⟨rfl, rfl, rfl⟩

/-- C3 (amended): when the auto-detection path chooses MultiQuery, the
OR-part count is between 2 and 5 and equals the number of detected indexed
equality conditions, and every detected condition is an equality (present
in the filter's equality matches) on a HASH key of an active GSI or of the
main table; branch-to-condition correspondence is by count only, not
per branch.  In every other auto-detection case the OR-containing filter
falls back to Scan. -/
theorem c3_multiquery_characterization (f : String) (names : List (String × String))
    (t : TableInfo) (h : multiQueryDecision f names t = true) :
    2 ≤ (splitOrParts f).length ∧ (splitOrParts f).length ≤ 5 ∧
    ∃ attrs, detectUsableIndex f names t = .orInfo attrs ∧
      attrs.length = (splitOrParts f).length ∧
      ∀ a ∈ attrs, isHashKeyOfActiveGsiOrMain a.key_attribute t = true ∧
        resolveAttr names a.attr_ref = a.key_attribute ∧
        (a.attr_ref, a.value_ref) ∈ findEqualityMatches f := by
  unfold multiQueryDecision at h
  cases hd : detectUsableIndex f names t with
  | noneApplicable => rw [hd] at h; cases h
  | queryInfo d => rw [hd] at h; cases h
  | orInfo attrs =>
    rw [hd] at h
    unfold canMultiQuery at h
    simp only [Bool.and_eq_true, decide_eq_true_eq] at h
    obtain ⟨⟨hcount, hle⟩, hge⟩ := h
    have hattrs : attrs = gsiIndexedAttrs t.global_indexes (findEqualityMatches f) names ++
        mainIndexedAttrs t.key_schema (findEqualityMatches f) names := by
      simp only [detectUsableIndex] at hd
      by_cases h1 : f = ""
      · rw [if_pos h1] at hd
        cases hd
      · rw [if_neg h1] at hd
        by_cases h2 : hasTopOr f = true
        · rw [if_pos h2] at hd
          by_cases h3 : (findEqualityMatches f).isEmpty = true
          · rw [if_pos h3] at hd
            cases hd
          · rw [if_neg h3] at hd
            by_cases h4 : (gsiIndexedAttrs t.global_indexes (findEqualityMatches f) names ++
                mainIndexedAttrs t.key_schema (findEqualityMatches f) names).isEmpty = true
            · rw [if_pos h4] at hd
              cases hd
            · rw [if_neg h4] at hd
              cases hd
              rfl
        · rw [if_neg h2] at hd
          by_cases h3 : (findEqualityMatches f).isEmpty = true
          · rw [if_pos h3] at hd
            cases hd
          · rw [if_neg h3] at hd
            cases hg : findGsiQuery f t.global_indexes (findEqualityMatches f) names with
            | some d =>
              rw [hg] at hd
              cases hd
            | none =>
              rw [hg] at hd
              cases hm : findMainQuery f t.key_schema (findEqualityMatches f) names with
              | some d =>
                rw [hm] at hd
                cases hd
              | none =>
                rw [hm] at hd
                cases hd
    refine ⟨by omega, by omega, attrs, rfl, by omega, ?_⟩
    intro a ha
    rw [hattrs] at ha
    rcases List.mem_append.mp ha with hmem | hmem
    · obtain ⟨⟨gsi, hgsi, hact, k, hk, hhash, hattr⟩, hres, hmatch⟩ := mem_gsiIndexedAttrs hmem
      refine ⟨?_, hres, hmatch⟩
      simp only [isHashKeyOfActiveGsiOrMain, Bool.or_eq_true, List.any_eq_true]
      exact Or.inl ⟨gsi, hgsi, by simp [hact, List.any_eq_true]; exact ⟨k, hk, by simp [hhash, hattr]⟩⟩
    · obtain ⟨⟨k, hk, hhash, hattr⟩, hres, hmatch⟩ := mem_mainIndexedAttrs hmem
      refine ⟨?_, hres, hmatch⟩
      simp only [isHashKeyOfActiveGsiOrMain, Bool.or_eq_true, List.any_eq_true]
      exact Or.inr ⟨k, hk, by simp [hhash, hattr]⟩

set_option maxRecDepth 8000 in
theorem c3_witness :
    2 ≤ (splitOrParts "a = :v0 OR x = :v1").length ∧
    (splitOrParts "a = :v0 OR x = :v1").length ≤ 5 :=
  ⟨(c3_multiquery_characterization "a = :v0 OR x = :v1" []
      ⟨[⟨"pk", "HASH"⟩],
        [⟨"gsi-a", "ACTIVE", [⟨"a", "HASH"⟩]⟩, ⟨"gsi-x", "ACTIVE", [⟨"x", "HASH"⟩]⟩], 0⟩
      (by rfl)).1,
   (c3_multiquery_characterization "a = :v0 OR x = :v1" []
      ⟨[⟨"pk", "HASH"⟩],
        [⟨"gsi-a", "ACTIVE", [⟨"a", "HASH"⟩]⟩, ⟨"gsi-x", "ACTIVE", [⟨"x", "HASH"⟩]⟩], 0⟩
      (by rfl)).2.1⟩

/-! ## The export command orchestration (`commands/export_table.py`)

The multi-query deduplication serializes primary-key values with
`json.dumps(..., sort_keys=True)`; we model it with a canonical recursive
printer (map entries rendered first, then sorted by key — the same output
order as sorting the keys first). -/

/-- Insertion into a key-sorted pair list. -/
def insertPairSorted (x : String × String) : List (String × String) → List (String × String)
  | [] => [x]
  | y :: ys => if x.1 ≤ y.1 then x :: y :: ys else y :: insertPairSorted x ys

/-- Insertion sort of rendered map entries by key (the order produced by
`json.dumps(..., sort_keys=True)`). -/
def sortPairsByKey : List (String × String) → List (String × String)
  | [] => []
  | x :: xs => insertPairSorted x (sortPairsByKey xs)

mutual
/-- `json.dumps(value, sort_keys=True)` as a canonical serialization of the
modelled value (string escaping is not modelled; no claim inspects the
rendered text, only its equality). -/
def jsonDumpValue : AttrValue → String
  | .vStr s => "\"" ++ s ++ "\""
  | .vNum n => toString n
  | .vBool b => if b then "true" else "false"
  | .vNull => "null"
  | .vList xs => "[" ++ jsonDumpList xs ++ "]"
  | .vMap m =>
    "\x7b" ++
      joinSep ", " ((sortPairsByKey (jsonDumpPairs m)).map fun kv =>
        "\"" ++ kv.1 ++ "\": " ++ kv.2) ++ "\x7d"

/-- Comma-joined serialization of a list's elements. -/
def jsonDumpList : List AttrValue → String
  | [] => ""
  | [x] => jsonDumpValue x
  | x :: xs => jsonDumpValue x ++ ", " ++ jsonDumpList xs

/-- Map entries rendered to (key, serialized value) pairs. -/
def jsonDumpPairs : List (String × AttrValue) → List (String × String)
  | [] => []
  | (k, v) :: rest => (k, jsonDumpValue v) :: jsonDumpPairs rest
end

/-- The arguments of `export_table_command` (export_table.py:207-234) that
influence the strategy selection, data fetching and dry-run behaviour.
Template handling, projection, output formatting, and the confirmation
prompts are outside the modelled slice (`yes = True` assumed); the
`filter_values`/`filter_names` manual mode is not used. -/
structure ExportArgs where
  key_condition : Option String
  filter : Option String
  index : Option String
  parallel_scan : Bool
  segments : Nat
  limit : Option Nat
  dry_run : Bool

/-- Observable side effects of one `export_table_command` run:
`describeTable` is a `DescribeTable` wire call (`get_table_info`);
`scanOp`/`queryOp` mark that a Scan-based/Query-based fetch ran (each
issues at least one `dynamodb.scan`/`dynamodb.query` wire call);
`fileProbe` is the pre-flight writability probe (export_table.py:619-622),
`fileWrite` the export file write itself. -/
inductive Effect where
  | describeTable
  | scanOp
  | queryOp
  | fileProbe
  | fileWrite
  deriving DecidableEq

/-- Outcome of one `export_table_command` run. -/
inductive ExportOutcome where
  | invalidFilter
  | fatalError (code : String)
  | noItems
  | dryRunReport
  | exported

/-- Python truthiness of the `filter` variable (an optional string). -/
def optStrTruthy : Option String → Bool
  | some s => s != ""
  | none => false

/-- The filter-compilation step of `export_table_command`
(export_table.py:306-313): a truthy simple filter goes through
`FilterBuilder.build_filter`, whose raise exits with an invalid-filter
error before any data access. -/
def compileFilterArg : Option String →
    Except String (Option String × List (String × WireVal) × List (String × String))
  | none => .ok (none, [], [])
  | some f =>
    if f = "" then .ok (some f, [], [])
    else
      match buildFilter f with
      | .ok (e, vals, names) => .ok (some e, vals, names)
      | .error msg => .error msg

/-- One entry of `query_configs` (export_table.py:359-365). -/
structure QueryConfig where
  key_condition : String
  index_name : Option String
  key_attribute : String

/-- Outcome of the strategy-selection section
(export_table.py:329-402). -/
structure StrategyResult where
  use_query : Bool
  multi_query_mode : Bool
  query_configs : List QueryConfig
  key_condition : Option String
  filter2 : Option String
  effects : List Effect

/-- The auto-detection section of `export_table_command`
(export_table.py:329-402): entered only without an explicit key condition
or index and with a truthy filter; it calls `get_table_info` (one
`DescribeTable`) and acts on `_detect_usable_index`'s answer. -/
def strategyStage (args : ExportArgs) (tableInfo : TableInfo)
    (filter1 : Option String) (names : List (String × String)) : StrategyResult :=
  let use_query0 := args.key_condition.isSome
  if ¬use_query0 ∧ optStrTruthy filter1 = true ∧ args.index.isNone then
    let fstr := filter1.getD ""
    match detectUsableIndex fstr names tableInfo with
    | .orInfo attrs =>
      if canMultiQuery fstr attrs then
        ⟨true, true,
          attrs.map (fun a => ⟨a.attr_ref ++ " = " ++ a.value_ref, a.index_name, a.key_attribute⟩),
          args.key_condition, filter1, [.describeTable]⟩
      else ⟨use_query0, false, [], args.key_condition, filter1, [.describeTable]⟩
    | .queryInfo d =>
      ⟨true, false, [], some d.key_condition, d.remaining_filter, [.describeTable]⟩
    | .noneApplicable => ⟨use_query0, false, [], args.key_condition, filter1, [.describeTable]⟩
  else ⟨use_query0, false, [], args.key_condition, filter1, []⟩

/-- The parallel auto-enable section (export_table.py:403-419): skipped
entirely under dry-run; otherwise one `DescribeTable`, and parallel mode
turned on for tables above 100 000 items.  (The segment-count auto-scaling
at lines 411-419 only changes wire-call parameters and is not modelled.) -/
def parallelStage (args : ExportArgs) (tableInfo : TableInfo) (use_query : Bool) :
    Bool × List Effect :=
  if ¬use_query ∧ ¬args.dry_run then
    (args.parallel_scan || decide (tableInfo.item_count > 100000), [.describeTable])
  else (args.parallel_scan, [])

/-- The deduplication key of the multi-query path
(export_table.py:466-471): `pk=json.dumps(item[pk], sort_keys=True)` joined
with `|` over the primary-key attributes present in the item. -/
def itemKeyFor (pkAttrs : List String) (item : Item) : String :=
  joinSep "|" (pkAttrs.filterMap fun pk =>
    match item.find? (fun kv => kv.1 = pk) with
    | some kv => some (pk ++ "=" ++ jsonDumpValue kv.2)
    | none => none)

/-- The per-batch dedup-and-collect loop (export_table.py:465-479 and
504-514): skip already-seen keys, stop within the batch once the truthy
global limit is reached. -/
def dedupInsert (pkAttrs : List String) (limit : Option Nat) :
    List Item → List Item → List String → List Item × List String
  | [], allItems, seen => (allItems, seen)
  | item :: rest, allItems, seen =>
    let key := itemKeyFor pkAttrs item
    if seen.contains key then dedupInsert pkAttrs limit rest allItems seen
    else
      let allItems' := allItems ++ [item]
      let seen' := seen ++ [key]
      if limitTruthy limit && decide (allItems'.length ≥ limit.getD 0) then (allItems', seen')
      else dedupInsert pkAttrs limit rest allItems' seen'

/-- The multi-query loop (export_table.py:442-516), threading the client's
response stream through successive `query_table` calls; the second
component counts the `query_table` invocations (for the effect trace).  A
`ProvisionedThroughputExceededException` triggers the single retry; note
that after the retry's dedup pass the source performs no limit break — the
loop proceeds with the next query config. -/
def multiQueryLoop (pkAttrs : List String) (limit limitPerQuery : Option Nat) :
    List QueryConfig → List CallResult → List Item → List String →
    Except ClientError (List Item) × Nat
  | [], _, allItems, _ => (.ok allItems, 0)
  | _qc :: moreQcs, responses, allItems, seen =>
    match query_table responses limitPerQuery with
    | (.ok queryItems, responses1) =>
      let (allItems1, seen1) := dedupInsert pkAttrs limit queryItems allItems seen
      if limitTruthy limit && decide (allItems1.length ≥ limit.getD 0) then (.ok allItems1, 1)
      else
        let (res, n) := multiQueryLoop pkAttrs limit limitPerQuery moreQcs responses1 allItems1 seen1
        (res, n + 1)
    | (.error e, responses1) =>
      if e.code = throughputExceededCode then
        match query_table responses1 limitPerQuery with
        | (.ok queryItems, responses2) =>
          let (allItems1, seen1) := dedupInsert pkAttrs limit queryItems allItems seen
          let (res, n) := multiQueryLoop pkAttrs limit limitPerQuery moreQcs responses2 allItems1 seen1
          (res, n + 2)
        | (.error e2, _) => (.error e2, 2)
      else (.error e, 1)

/-- The data-fetch section of `export_table_command`
(export_table.py:424-565): multi-query (with its extra `get_table_info`
for the primary key and its final truncation, lines 439 and 521-523), then
explicit/auto Query, then parallel scan (skipped under dry-run), then the
regular scan.  Segment failures of the parallel scanner (more than half →
`RuntimeError`) are outside the modelled slice. -/
def fetchPhase (args : ExportArgs) (tableInfo : TableInfo) (responses : List CallResult)
    (parallelSegments : List (List Page)) (st : StrategyResult) (use_parallel : Bool) :
    Except ClientError (List Item) × List Effect :=
  if st.multi_query_mode then
    let limitPerQuery : Option Nat :=
      if limitTruthy args.limit then
        some (3 * args.limit.getD 0 / (2 * st.query_configs.length) + 100)
      else none
    let pkAttrs := tableInfo.key_schema.map (fun k => k.attributeName)
    match multiQueryLoop pkAttrs args.limit limitPerQuery st.query_configs responses [] [] with
    | (.ok items0, n) =>
      let items :=
        if limitTruthy args.limit && decide (items0.length > args.limit.getD 0) then
          items0.take (args.limit.getD 0)
        else items0
      (.ok items, .describeTable :: List.replicate n .queryOp)
    | (.error e, n) => (.error e, .describeTable :: List.replicate n .queryOp)
  else if st.use_query then
    match query_table responses args.limit with
    | (.ok items, _) => (.ok items, [.queryOp])
    | (.error e, _) => (.error e, [.queryOp])
  else if use_parallel && !args.dry_run then
    (.ok (parallelScan parallelSegments args.limit), [.scanOp])
  else
    match scan_table responses args.limit with
    | .ok items => (.ok items, [.scanOp])
    | .error e => (.error e, [.scanOp])

/-- `export_table_command` (export_table.py:207-707), modelled from the
filter compilation onwards: compile the filter, select the strategy, fetch
the items, and only then — when items were found and dry-run is off —
probe the output path (export_table.py:619-622) and write the file.  The
dry-run report (export_table.py:571-596) happens after fetching but before
any file activity. -/
def exportTableCommand (args : ExportArgs) (tableInfo : TableInfo)
    (responses : List CallResult) (parallelSegments : List (List Page)) :
    ExportOutcome × List Effect :=
  match compileFilterArg args.filter with
  | .error _ => (.invalidFilter, [])
  | .ok (filter1, _vals, names) =>
    let st := strategyStage args tableInfo filter1 names
    let par := parallelStage args tableInfo st.use_query
    let fetch := fetchPhase args tableInfo responses parallelSegments st par.1
    let effs := st.effects ++ par.2 ++ fetch.2
    match fetch.1 with
    | .error e => (.fatalError e.code, effs)
    | .ok items =>
      if items.isEmpty then (.noItems, effs)
      else if args.dry_run then (.dryRunReport, effs)
      else (.exported, effs ++ [.fileProbe, .fileWrite])

theorem strategyStage_effects (args : ExportArgs) (tableInfo : TableInfo)
    (filter1 : Option String) (names : List (String × String)) :
    ∀ e ∈ (strategyStage args tableInfo filter1 names).effects, e = Effect.describeTable := by
  intro e he
  simp only [strategyStage] at he
  split at he
  · split at he
    all_goals
      first
      | (split at he <;> simp_all)
      | simp_all
  · simp_all

theorem parallelStage_effects (args : ExportArgs) (tableInfo : TableInfo) (use_query : Bool) :
    ∀ e ∈ (parallelStage args tableInfo use_query).2, e = Effect.describeTable := by
  intro e he
  unfold parallelStage at he
  split_ifs at he <;> simp_all

theorem fetchPhase_effects (args : ExportArgs) (tableInfo : TableInfo)
    (responses : List CallResult) (parallelSegments : List (List Page))
    (st : StrategyResult) (use_parallel : Bool) :
    ∀ e ∈ (fetchPhase args tableInfo responses parallelSegments st use_parallel).2,
      e = Effect.describeTable ∨ e = Effect.scanOp ∨ e = Effect.queryOp := by
  intro e he
  simp only [fetchPhase] at he
  split at he
  · split at he
    all_goals
      simp only [List.mem_cons, List.mem_replicate] at he
      rcases he with he | ⟨-, he⟩
      · exact Or.inl he
      · exact Or.inr (Or.inr he)
  · split at he
    · split at he
      all_goals
        simp only [List.mem_singleton] at he
        exact Or.inr (Or.inr he)
    · split at he
      · simp only [List.mem_singleton] at he
        exact Or.inr (Or.inl he)
      · split at he
        all_goals
          simp only [List.mem_singleton] at he
          exact Or.inr (Or.inl he)

/-- C1 counterexample: with `dry_run = True` and no filter, key condition
or parallel flag, the command still fetches data through the regular-Scan
path before printing the dry-run report — a `dynamodb.scan` call *is*
issued (the trace contains a Scan operation), contradicting the claim that
no Scan or Query call is ever issued under dry-run.  (No file is probed or
written, which is the part of the claim that survives.) -/
theorem c1_counterexample :
    (exportTableCommand ⟨none, none, none, false, 4, none, true⟩
      ⟨[⟨"pk", "HASH"⟩], [], 0⟩
      [.ok (Page.mk [[("pk", AttrValue.vStr "1")]] false)] []).1 = .dryRunReport ∧
    Effect.scanOp ∈ (exportTableCommand ⟨none, none, none, false, 4, none, true⟩
      ⟨[⟨"pk", "HASH"⟩], [], 0⟩
      [.ok (Page.mk [[("pk", AttrValue.vStr "1")]] false)] []).2 := by
  exact ⟨rfl, by decide⟩

/-- C1 (amended): under `dry_run = True` the command never probes or
writes an output file — every effect it can emit before the dry-run report
(or an early error) is a `DescribeTable`, Scan or Query operation; but
data *is* still fetched: Scan (non-parallel) or Query calls are issued
before the report, with only the parallel-scan branch suppressed under
dry-run. -/
theorem c1_dry_run_no_file_writes (args : ExportArgs) (tableInfo : TableInfo)
    (responses : List CallResult) (parallelSegments : List (List Page))
    (h : args.dry_run = true) :
    Effect.fileProbe ∉ (exportTableCommand args tableInfo responses parallelSegments).2 ∧
    Effect.fileWrite ∉ (exportTableCommand args tableInfo responses parallelSegments).2 := by
  unfold exportTableCommand
  cases hc : compileFilterArg args.filter with
  | error msg => simp
  | ok triple =>
    obtain ⟨filter1, vals, names⟩ := triple
    simp only
    have hsafe : ∀ e ∈ (strategyStage args tableInfo filter1 names).effects ++
        (parallelStage args tableInfo (strategyStage args tableInfo filter1 names).use_query).2 ++
        (fetchPhase args tableInfo responses parallelSegments
          (strategyStage args tableInfo filter1 names)
          (parallelStage args tableInfo
            (strategyStage args tableInfo filter1 names).use_query).1).2,
        e ≠ Effect.fileProbe ∧ e ≠ Effect.fileWrite := by
      intro e he
      rcases List.mem_append.mp he with he' | he'
      · rcases List.mem_append.mp he' with he'' | he''
        · have := strategyStage_effects args tableInfo filter1 names e he''
          subst this
          exact ⟨by simp, by simp⟩
        · have := parallelStage_effects args tableInfo
            (strategyStage args tableInfo filter1 names).use_query e he''
          subst this
          exact ⟨by simp, by simp⟩
      · rcases fetchPhase_effects args tableInfo responses parallelSegments
            (strategyStage args tableInfo filter1 names)
            (parallelStage args tableInfo
              (strategyStage args tableInfo filter1 names).use_query).1 e he'
          with h1 | h1 | h1 <;> (subst h1; exact ⟨by simp, by simp⟩)
    cases hf : (fetchPhase args tableInfo responses parallelSegments
        (strategyStage args tableInfo filter1 names)
        (parallelStage args tableInfo
          (strategyStage args tableInfo filter1 names).use_query).1).1 with
    | error e =>
      simp only
      exact ⟨fun hin => ((hsafe _ hin).1 rfl), fun hin => ((hsafe _ hin).2 rfl)⟩
    | ok items =>
      simp only
      by_cases hi : items.isEmpty
      · rw [if_pos hi]
        exact ⟨fun hin => ((hsafe _ hin).1 rfl), fun hin => ((hsafe _ hin).2 rfl)⟩
      · rw [if_neg hi, if_pos h]
        exact ⟨fun hin => ((hsafe _ hin).1 rfl), fun hin => ((hsafe _ hin).2 rfl)⟩

theorem c1_witness :
    Effect.fileProbe ∉ (exportTableCommand ⟨none, none, none, false, 4, none, true⟩
      ⟨[⟨"pk", "HASH"⟩], [], 0⟩
      [.ok (Page.mk [[("pk", AttrValue.vStr "2")]] false)] []).2 ∧
    Effect.fileWrite ∉ (exportTableCommand ⟨none, none, none, false, 4, none, true⟩
      ⟨[⟨"pk", "HASH"⟩], [], 0⟩
      [.ok (Page.mk [[("pk", AttrValue.vStr "2")]] false)] []).2 :=
  c1_dry_run_no_file_writes ⟨none, none, none, false, 4, none, true⟩
    ⟨[⟨"pk", "HASH"⟩], [], 0⟩
    [.ok (Page.mk [[("pk", AttrValue.vStr "2")]] false)] [] rfl

/-! ## CSV header computation (`core/exporter.py`)

Items are modelled post-deserialization (boto3's `TypeDeserializer` is an
external bijection), so `_convert_dynamodb_item` is the identity in the
model and `Decimal` conversion is a no-op (numbers are already `Int`). -/

/-- The scalar test of `_flatten_dict`'s list handling (exporter.py:81):
`isinstance(item, (str, int, float, bool, type(None), Decimal))`. -/
def isScalarForJoin : AttrValue → Bool
  | .vStr _ => true
  | .vNum _ => true
  | .vBool _ => true
  | .vNull => true
  | _ => false

/-- Python `str(v)` on a scalar (exporter.py:84). -/
def strOfValueForJoin : AttrValue → String
  | .vStr s => s
  | .vNum n => toString n
  | .vBool b => if b then "True" else "False"
  | .vNull => "None"
  | _ => ""

mutual
/-- `DynamoDBExporter._flatten_dict` (exporter.py:66-91) over the entry
list: nested maps recurse with dotted keys, scalar lists are joined with
the list separator, complex lists are JSON-serialized, scalars pass
through.  (The source's final `dict(items)` would keep the last value on a
key collision; the key *set* — all any claim uses — is unchanged.) -/
def flattenEntries (separator listSeparator : String) :
    List (String × AttrValue) → String → List (String × AttrValue)
  | [], _ => []
  | (key, value) :: rest, parentKey =>
    let newKey := if parentKey = "" then key else parentKey ++ separator ++ key
    flattenOne separator listSeparator newKey value ++
      flattenEntries separator listSeparator rest parentKey

/-- Flattening of one value under its (already joined) key. -/
def flattenOne (separator listSeparator : String) (newKey : String) :
    AttrValue → List (String × AttrValue)
  | .vMap m => flattenEntries separator listSeparator m newKey
  | .vList xs =>
    if xs.all isScalarForJoin then
      [(newKey, .vStr (joinSep listSeparator (xs.map strOfValueForJoin)))]
    else [(newKey, .vStr (jsonDumpValue (.vList xs)))]
  | v => [(newKey, v)]
end

/-- `_flatten_dict` with its default separators. -/
def flatten_dict (data : Item) : Item :=
  flattenEntries "." "|" data ""

/-- `DynamoDBExporter._serialize_as_json` (exporter.py:93-103): dict/list
values are replaced by their JSON text, scalars pass through; keys are
unchanged.  (The source dumps without `sort_keys`; the model's canonical
printer sorts nested map keys — no claim inspects the rendered text.) -/
def serialize_as_json (data : Item) : Item :=
  data.map fun kv =>
    match kv.2 with
    | .vMap m => (kv.1, .vStr (jsonDumpValue (.vMap m)))
    | .vList xs => (kv.1, .vStr (jsonDumpValue (.vList xs)))
    | v => (kv.1, v)

/-- The three export modes of `export_to_csv`. -/
inductive ExportMode where
  | strings
  | flatten
  | normalize

/-- The mode dispatch of `export_to_csv` (exporter.py:341-356) and of the
streaming sampler (exporter.py:456-466): the converted records one item
contributes. -/
def convertForMode (mode : ExportMode) (item : Item) : List Item :=
  match mode with
  | .strings => [serialize_as_json item]
  | .flatten => [flatten_dict item]
  | .normalize => (normalizeLists item).map flatten_dict

/-- Insertion into a sorted duplicate-free list, dropping an already
present key. -/
def insertSortedNoDup (x : String) : List String → List String
  | [] => [x]
  | y :: ys =>
    if x = y then y :: ys
    else if x ≤ y then x :: y :: ys
    else y :: insertSortedNoDup x ys

/-- `sorted(set(keys))` (exporter.py:359-362): the lexicographically
sorted duplicate-free key list. -/
def sortedDedup : List String → List String
  | [] => []
  | x :: xs => insertSortedNoDup x (sortedDedup xs)

/-- All keys of all converted records of all items, in encounter order. -/
def allRecordKeys (mode : ExportMode) (items : List Item) : List String :=
  items.flatMap fun item =>
    (convertForMode mode item).flatMap fun rec => rec.map fun kv => kv.1

/-- The CSV header of the non-streaming `export_to_csv`
(exporter.py:358-362): the sorted union of the keys of all converted
records. -/
def export_to_csv_fieldnames (items : List Item) (mode : ExportMode) : List String :=
  sortedDedup (allRecordKeys mode items)

/-- The CSV header of `_export_to_csv_streaming` (exporter.py:452-468):
the sorted union of the keys contributed by the first
`min(1000, len(items))` items only. -/
def streamingFieldnames (items : List Item) (mode : ExportMode) : List String :=
  sortedDedup (allRecordKeys mode (items.take (min 1000 items.length)))

theorem mem_insertSortedNoDup (x y : String) :
    ∀ l : List String, y ∈ insertSortedNoDup x l ↔ y = x ∨ y ∈ l := by
  intro l
  induction l with
  | nil => simp [insertSortedNoDup]
  | cons z zs ih =>
    simp only [insertSortedNoDup]
    by_cases h1 : x = z
    · subst h1
      rw [if_pos rfl]
      simp only [List.mem_cons]
      tauto
    · rw [if_neg h1]
      by_cases h2 : x ≤ z
      · rw [if_pos h2]
        simp only [List.mem_cons]
      · rw [if_neg h2]
        simp only [List.mem_cons, ih]
        tauto

theorem sorted_nodup_insertSortedNoDup (x : String) :
    ∀ l : List String, l.Sorted (· ≤ ·) → l.Nodup →
      (insertSortedNoDup x l).Sorted (· ≤ ·) ∧ (insertSortedNoDup x l).Nodup := by
  intro l
  induction l with
  | nil => intro _ _; simp [insertSortedNoDup]
  | cons z zs ih =>
    intro hs hn
    rw [List.sorted_cons] at hs
    rw [List.nodup_cons] at hn
    simp only [insertSortedNoDup]
    by_cases h1 : x = z
    · subst h1
      rw [if_pos rfl]
      exact ⟨List.sorted_cons.mpr hs, List.nodup_cons.mpr hn⟩
    · rw [if_neg h1]
      by_cases h2 : x ≤ z
      · rw [if_pos h2]
        refine ⟨List.sorted_cons.mpr ⟨?_, List.sorted_cons.mpr hs⟩, List.nodup_cons.mpr ⟨?_, List.nodup_cons.mpr hn⟩⟩
        · intro b hb
          rcases List.mem_cons.mp hb with rfl | hb
          · exact h2
          · exact le_trans h2 (hs.1 b hb)
        · intro hx
          rcases List.mem_cons.mp hx with rfl | hx
          · exact h1 rfl
          · exact absurd (hs.1 x hx) (fun hle => h1 (le_antisymm h2 hle))
      · rw [if_neg h2]
        have hzx : z ≤ x := le_of_not_le h2
        obtain ⟨ihs, ihn⟩ := ih hs.2 hn.2
        refine ⟨List.sorted_cons.mpr ⟨?_, ihs⟩, List.nodup_cons.mpr ⟨?_, ihn⟩⟩
        · intro b hb
          rcases (mem_insertSortedNoDup x b zs).mp hb with rfl | hb
          · exact hzx
          · exact hs.1 b hb
        · intro hz
          rcases (mem_insertSortedNoDup x z zs).mp hz with rfl | hz
          · exact h2 (le_refl _)
          · exact hn.1 hz

theorem sortedDedup_sorted_nodup :
    ∀ l : List String, (sortedDedup l).Sorted (· ≤ ·) ∧ (sortedDedup l).Nodup := by
  intro l
  induction l with
  | nil => simp [sortedDedup]
  | cons x xs ih =>
    simp only [sortedDedup]
    exact sorted_nodup_insertSortedNoDup x (sortedDedup xs) ih.1 ih.2

theorem mem_sortedDedup (y : String) : ∀ l : List String, y ∈ sortedDedup l ↔ y ∈ l := by
  intro l
  induction l with
  | nil => simp [sortedDedup]
  | cons x xs ih =>
    simp only [sortedDedup, List.mem_cons]
    rw [mem_insertSortedNoDup, ih]

theorem sortedDedup_eq_of_mem_iff {l₁ l₂ : List String}
    (h : ∀ a, a ∈ l₁ ↔ a ∈ l₂) : sortedDedup l₁ = sortedDedup l₂ := by
  refine List.eq_of_perm_of_sorted ?_ (sortedDedup_sorted_nodup l₁).1 (sortedDedup_sorted_nodup l₂).1
  rw [List.perm_ext_iff_of_nodup (sortedDedup_sorted_nodup l₁).2 (sortedDedup_sorted_nodup l₂).2]
  intro a
  rw [mem_sortedDedup, mem_sortedDedup]
  exact h a

theorem mem_allRecordKeys (mode : ExportMode) (its : List Item) (key : String) :
    key ∈ allRecordKeys mode its ↔
      ∃ item ∈ its, ∃ rec ∈ convertForMode mode item, ∃ v, (key, v) ∈ rec := by
  simp only [allRecordKeys, List.mem_flatMap, List.mem_map]
  constructor
  · rintro ⟨item, hi, rec, hr, kv, hkv, rfl⟩
    exact ⟨item, hi, rec, hr, kv.2, by simpa using hkv⟩
  · rintro ⟨item, hi, rec, hr, v, hv⟩
    exact ⟨item, hi, rec, hr, (key, v), hv, rfl⟩

/-- C8: the CSV header is the lexicographically sorted, duplicate-free
union of the keys of the converted records — over all items in
non-streaming mode, hence deterministic and independent of item order —
while the streaming header is computed from the first
`min(1000, len(items))` items only, so a field first contributed after the
sampled prefix is absent from the streaming header
(exporter.py:358-362, 452-468). -/
theorem c8_csv_header (items items' : List Item) (mode : ExportMode) (k : String)
    (hperm : items.Perm items') :
    (export_to_csv_fieldnames items mode).Sorted (· ≤ ·) ∧
    (∀ key, key ∈ export_to_csv_fieldnames items mode ↔
      ∃ item ∈ items, ∃ rec ∈ convertForMode mode item, ∃ v, (key, v) ∈ rec) ∧
    export_to_csv_fieldnames items mode = export_to_csv_fieldnames items' mode ∧
    streamingFieldnames items mode =
      export_to_csv_fieldnames (items.take (min 1000 items.length)) mode ∧
    ((¬ ∃ item ∈ items.take (min 1000 items.length), ∃ rec ∈ convertForMode mode item,
        ∃ v, (k, v) ∈ rec) → k ∉ streamingFieldnames items mode) := by
  refine ⟨(sortedDedup_sorted_nodup _).1, ?_, ?_, rfl, ?_⟩
  · intro key
    rw [export_to_csv_fieldnames, mem_sortedDedup, mem_allRecordKeys]
  · refine sortedDedup_eq_of_mem_iff ?_
    intro a
    rw [mem_allRecordKeys, mem_allRecordKeys]
    constructor
    · rintro ⟨item, hi, rest⟩
      exact ⟨item, hperm.mem_iff.mp hi, rest⟩
    · rintro ⟨item, hi, rest⟩
      exact ⟨item, hperm.mem_iff.mpr hi, rest⟩
  · intro habs hmem
    rw [streamingFieldnames, mem_sortedDedup, mem_allRecordKeys] at hmem
    exact habs hmem

theorem c8_witness :
    export_to_csv_fieldnames [[("b", AttrValue.vNum 1)], [("a", AttrValue.vStr "x")]]
        ExportMode.flatten =
      export_to_csv_fieldnames [[("a", AttrValue.vStr "x")], [("b", AttrValue.vNum 1)]]
        ExportMode.flatten :=
  (c8_csv_header [[("b", AttrValue.vNum 1)], [("a", AttrValue.vStr "x")]]
    [[("a", AttrValue.vStr "x")], [("b", AttrValue.vNum 1)]] ExportMode.flatten "z"
    (List.Perm.swap _ _ _)).2.2.1

set_option maxRecDepth 4000 in
theorem c4_witness :
    (parallelScan [[Page.mk (List.replicate 100 []) false], [Page.mk (List.replicate 100 []) false],
        [Page.mk (List.replicate 100 []) false], [Page.mk (List.replicate 100 []) false]]
      (some 50)).length = 50 :=
  (c4_parallel_scan_limit
      [[Page.mk (List.replicate 100 []) false], [Page.mk (List.replicate 100 []) false],
        [Page.mk (List.replicate 100 []) false], [Page.mk (List.replicate 100 []) false]]
      50 (by decide) (by decide)).2 (by decide) (by decide)

end DevoCli
